import Mathlib

/-!
Verification of the modshim layered-namespace overlay resolver
(`src/modshim/__init__.py`).

The development shallowly embeds the resolver: Python module dictionaries
become partial maps `String → Option PyVal`, the process-wide module
registry (`sys.modules`), the heap of module objects and the per-finder
cache become an explicit state record, and the stateful functions
(`shim`, `MergedModuleLoader.create_module`, `exec_module`, `_do_import`,
`patch_globals`, `MergedModule.__getattr__`) become total Lean functions
over that state.  Dunder attribute bookkeeping (`__package__`, `__path__`,
…) of module objects, relative-import level resolution, and thread locks
(the model is the serialized execution the locks enforce) are elided;
native imports of modules outside the two layers are abstracted by an
environment of pre-bound dictionaries, as the spec treats providers as
opaque collaborators.
-/

namespace Modshim

/-- Abstract Python runtime values as they matter to the resolver:
functions and classes carry a `__module__` tag, plain objects may or may
not, module references point into the heap, and `patched` is the fresh
function object produced by `patch_globals` (a new `FunctionType` wrapping
the same code with merged globals, its `__module__` set to the merged
module's name). `id` fields distinguish distinct runtime objects. -/
inductive PyVal where
  | func (id : Nat) (tag : String)
  | cls (id : Nat) (tag : String)
  | obj (id : Nat) (tag : Option String)
  | modref (id : Nat)
  | patched (orig : PyVal) (newTag : String)
  deriving DecidableEq, Repr

/-- The `__module__` attribute of a value, when it has one. -/
def PyVal.tagOf : PyVal → Option String
  | .func _ t => some t
  | .cls _ t => some t
  | .obj _ t => t
  | .modref _ => none
  | .patched _ t => some t

/-- A module symbol table (`module.__dict__`), as a partial map. -/
def Dict : Type := String → Option PyVal

def emptyDict : Dict := fun _ => none

/-- `d1.update(d2)`: entries of `d2` win on key collision. -/
def dictUpdate (d1 d2 : Dict) : Dict := fun k => (d2 k).orElse (fun _ => d1 k)

/-- Python `s.startswith(p)`. -/
def pyStartsWith (s p : String) : Bool := p.data.isPrefixOf s.data

/-- The filter used by both copy steps of `exec_module`:
`{k: v for k, v in d.items() if not k.startswith("__")}`. -/
def pubFilter (d : Dict) : Dict := fun k => if pyStartsWith k "__" then none else d k

/-- `patch_globals(value, new_globals)` at the granularity of this model:
a plain function is rebuilt as a fresh `FunctionType` with merged globals
(a distinct object); classes are patched in place (identity preserved) and
other objects are returned as-is. -/
def patchGlobals (v : PyVal) (mergedName : String) : PyVal :=
  match v with
  | .func i t => .patched (.func i t) mergedName
  | v => v

/-- The per-entry action of the final loop of `exec_module`
(`if hasattr(value, "__module__") and value.__module__ == self.lower_name`). -/
def patchEntry (mergedName lowerName : String) (v : PyVal) : PyVal :=
  if v.tagOf = some lowerName then patchGlobals v mergedName else v

/-- The final loop of `exec_module`: every entry of the merged dict whose
value carries `__module__ == lower_name` is re-bound to its
globals-patched form. -/
def patchLoop (mergedName lowerName : String) (d : Dict) : Dict :=
  fun k => (d k).map (patchEntry mergedName lowerName)

/-- The two attribute-copy steps of `exec_module` (lines 374-396): copy
the non-`__`-prefixed entries of the lower dict over the module dict,
then the non-`__`-prefixed entries of the upper dict over that. -/
def copyStep (d0 lowerDict upperDict : Dict) : Dict :=
  dictUpdate (dictUpdate d0 (pubFilter lowerDict)) (pubFilter upperDict)

/-- The full symbol-table computation of `exec_module` after both layers
have executed: copy lower, copy upper, then patch globals of values
originating from the lower module. -/
def copyAndPatch (mergedName lowerName : String) (d0 lowerDict upperDict : Dict) : Dict :=
  patchLoop mergedName lowerName (copyStep d0 lowerDict upperDict)

/-- Python convention (PEP 8): a top-level name starting with an
underscore is private to its module. -/
def isConventionPrivate (k : String) : Bool := pyStartsWith k "_"

/-! ### `MergedModule.__getattr__` (lines 63-99)

The dynamic fallback runs only when the name is absent from the merged
module's own `__dict__`.  It first consults `sys.modules` for a submodule
entry; then it evaluates `getattr(self._upper, name)` into `result`, but
that binding is dead: the subsequent `getattr(self._lower, name)`
unconditionally overwrites `result` on success and re-raises its
`AttributeError` on failure. -/

/-- `MergedModule.__getattr__`.  `sysMods` is `sys.modules` (restricted to
module ids), `selfName` the merged module's `__name__`, `upper`/`lower`
the two layer modules' dictionaries.  `.error ()` is the raised
`AttributeError`. -/
def mergedGetattr (sysMods : String → Option Nat) (selfName : String)
    (upper lower : Dict) (name : String) : Except Unit PyVal :=
  match sysMods (selfName ++ "." ++ name) with
  | some mid => .ok (.modref mid)
  | none =>
    -- try: result = getattr(self._upper, name) / except AttributeError: pass
    -- (the value bound here is overwritten or discarded by the lower lookup)
    let _upperResult := upper name
    match lower name with
    | some v => .ok v
    | none => .error ()

/-! ### `shim` argument validation (lines 592-627) -/

/-- The validation and mount-name-defaulting prefix of `shim`.  `upper`
and `mount` are optional parameters; `callerPackage` and `callerName` are
`__package__` and `__name__` of the caller's frame, consulted when
`upper` is `None`.  Returns the merged (mount) name, or the `ValueError`
message. -/
def shimValidate (lower : String) (upper : Option String) (mount : Option String)
    (callerPackage callerName : String) : Except String String :=
  if lower = "" then .error "Lower module name cannot be empty"
  else
    let derived : Except String String :=
      match upper with
      | some u => .ok u
      | none =>
        if callerPackage = "" then
          if callerName = "__main__" then
            .error "Cannot determine package name from main"
          else if callerName = "" then
            .error "Upper module name cannot be determined"
          else .ok callerName
        else .ok callerPackage
    match derived with
    | .error e => .error e
    | .ok u =>
      if u = "" then .error "Upper module name cannot be empty"
      else
        -- merged_name = mount or upper  (no validation of mount at all)
        match mount with
        | some m => .ok (if m = "" then u else m)
        | none => .ok u

/-! ### String rewriting in `_do_import` (lines 252-259) -/

/-- Python `s.replace(old, new, 1)` on character lists: replace the first
occurrence of `old`, scanning left to right. -/
def replaceFirstL (old new : List Char) : List Char → List Char
  | [] => if old = [] then new else []
  | c :: cs =>
    if old.isPrefixOf (c :: cs) then new ++ (c :: cs).drop old.length
    else c :: replaceFirstL old new cs

/-- Python `s.replace(old, new, 1)`. -/
def pyReplace1 (s old new : String) : String := ⟨replaceFirstL old.data new.data s.data⟩

/-- The guard of the rewrite: `name == lower_name or
name.startswith(lower_name + ".")`. -/
def nameMatchesRoot (root name : String) : Bool :=
  name == root || pyStartsWith name (root ++ ".")

/-- The import-name rewrite of `_do_import`: when the caller is inside one
of the two layers and the (absolute) imported name matches the lower root,
the name is rewritten by `name.replace(lower_name, merged_name, 1)`. -/
def redirectName (fromLayer : Bool) (lowerName mergedName name : String) : String :=
  if fromLayer && nameMatchesRoot lowerName name
  then pyReplace1 name lowerName mergedName
  else name

/-! ### The process state

A module object is a heap cell; `sys.modules` and the finder cache map
names/keys to heap indices.  Module bodies are lists of statements
(top-level assignments and imports), which is the granularity the
resolver itself observes. -/

/-- One top-level statement of a module body. -/
inductive Stmt where
  | assign (k : String) (v : PyVal)
  | imp (target bindAs : String)
  deriving Repr

/-- What `find_spec` yields for a loadable module: its executable body. -/
structure ModSpec where
  body : List Stmt

/-- Provenance of a `MergedModule`: heap ids of its `_upper` and `_lower`
modules and the finder-cache key it was built for. -/
structure MergedInfo where
  upperId : Nat
  lowerId : Nat
  triple : String × String × String

/-- A module object: its `__name__`, its `__spec__` (when loadable), its
`__dict__`, and, for a `MergedModule`, its provenance. -/
structure MObj where
  name : String
  spec : Option ModSpec
  dict : Dict
  merged : Option MergedInfo

/-- The environment of external providers: `find_spec` results for the
two layers, and pre-bound dictionaries for modules imported natively
(the opaque provider collaborator of the spec). -/
structure Env where
  spec : String → Option ModSpec
  bound : String → Option Dict

/-- Process-wide state: the heap of module objects, `sys.modules`, and
the active finder's cache keyed by `(upper_name, lower_name, merged_name)`. -/
structure St where
  heap : List MObj
  sysMods : String → Option Nat
  cache : String × String × String → Option Nat

/-- The names carried by one `MergedModuleFinder` / `MergedModuleLoader`. -/
structure FinderCfg where
  mergedName : String
  upperName : String
  lowerName : String

def FinderCfg.key (f : FinderCfg) : String × String × String :=
  (f.upperName, f.lowerName, f.mergedName)

def listModify (l : List MObj) (i : Nat) (g : MObj → MObj) : List MObj :=
  match l, i with
  | [], _ => []
  | x :: xs, 0 => g x :: xs
  | x :: xs, n + 1 => x :: listModify xs n g

def St.getObj (st : St) (i : Nat) : Option MObj := st.heap.get? i

/-- Allocate a fresh module object, returning its id. -/
def St.alloc (st : St) (o : MObj) : Nat × St :=
  (st.heap.length, { st with heap := st.heap ++ [o] })

def St.setSysMod (st : St) (n : String) (v : Option Nat) : St :=
  { st with sysMods := fun k => if k = n then v else st.sysMods k }

def St.setCache (st : St) (key : String × String × String) (v : Option Nat) : St :=
  { st with cache := fun k => if k = key then v else st.cache k }

def St.withDict (st : St) (i : Nat) (g : Dict → Dict) : St :=
  { st with heap := listModify st.heap i (fun o => { o with dict := g o.dict }) }

/-- `setattr(heap[i], k, v)`. -/
def St.setAttr (st : St) (i : Nat) (k : String) (v : PyVal) : St :=
  st.withDict i (fun d k2 => if k2 = k then some v else d k2)

/-! ### `_do_import` and module execution -/

/-- `_original_import` on an absolute name: return the module from
`sys.modules`, or bind the provider's unit and register it. -/
def nativeImport (env : Env) (name : String) (st : St) : Except String (Nat × St) :=
  match st.sysMods name with
  | some i => .ok (i, st)
  | none =>
    match env.bound name with
    | some d =>
      -- allocate the freshly executed module (its id is the heap length)
      -- and register it in sys.modules
      .ok (st.heap.length,
        ((st.alloc { name := name, spec := none, dict := d, merged := none }).2).setSysMod
          name (some st.heap.length))
    | none => .error ("No module named " ++ name)

/-- The trailing-segment traversal of `_do_import` (lines 287-300):
`merged_name_parts[1 : len(merged) - len(lower) + 1]`. -/
def extraParts (lowerName mergedName : String) : List String :=
  let mp := mergedName.splitOn "."
  let lp := lowerName.splitOn "."
  (mp.drop 1).take (mp.length - lp.length)

/-- The `getattr` chain of the traversal, stopping at the current module
on an attribute miss (the `break`). -/
def traverseParts (st : St) : Nat → List String → Nat
  | cur, [] => cur
  | cur, p :: ps =>
    match (st.getObj cur).bind (fun o => o.dict p) with
    | some (.modref next) => traverseParts st next ps
    | _ => cur

/-- Is the importing module inside one of the two layers? -/
def layerCaller (f : FinderCfg) (callerModule : String) : Bool :=
  callerModule == f.lowerName || callerModule == f.upperName
    || pyStartsWith callerModule (f.lowerName ++ ".")
    || pyStartsWith callerModule (f.upperName ++ ".")

/-- The working-copy interception of `_do_import` (lines 262-268): when
the imported name is the module currently being created, answer with the
cached `MergedModule` object's `_lower` copy. -/
def lookupWorkingCopy (f : FinderCfg) (name1 : String) (st : St) : Option Nat :=
  if name1 == f.mergedName then
    match st.cache f.key with
    | some mid => ((st.getObj mid).bind (·.merged)).map (·.lowerId)
    | none => none
  else none

/-- `MergedModuleLoader._do_import` for absolute (level-0) imports: decide
whether the caller sits inside one of the layers, rewrite a lower-rooted
name onto the mount root, intercept an import of the module currently
being created by returning its `_lower` working copy from the cache, and
otherwise fall through to the native import (plus nesting traversal). -/
def doImport (env : Env) (f : FinderCfg) (callerModule : String) (name : String)
    (st : St) : Except String (Nat × St) :=
  let doReplace := layerCaller f callerModule && nameMatchesRoot f.lowerName name
  let name1 := if doReplace then pyReplace1 name f.lowerName f.mergedName else name
  match lookupWorkingCopy f name1 st with
  | some lowerId => .ok (lowerId, st)
  | none =>
    match nativeImport env name1 st with
    | .error e => .error e
    | .ok (rid, st2) =>
      if doReplace then .ok (traverseParts st2 rid (extraParts f.lowerName f.mergedName), st2)
      else .ok (rid, st2)

/-- Execute one top-level statement of the module at id `mid`; `hook` is
the active import hook (present exactly while the lower layer executes). -/
def execStmt (env : Env) (hook : Option FinderCfg) (mid : Nat) (st : St) :
    Stmt → Except String St
  | .assign k v => .ok (st.setAttr mid k v)
  | .imp target bindAs =>
    let caller := ((st.getObj mid).map (·.name)).getD ""
    match hook with
    | some f =>
      match doImport env f caller target st with
      | .error e => .error e
      | .ok (rid, st2) => .ok (st2.setAttr mid bindAs (.modref rid))
    | none =>
      match nativeImport env target st with
      | .error e => .error e
      | .ok (rid, st2) => .ok (st2.setAttr mid bindAs (.modref rid))

/-- Execute a module body in order. -/
def execBody (env : Env) (hook : Option FinderCfg) (mid : Nat) :
    List Stmt → St → Except String St
  | [], st => .ok st
  | s :: rest, st =>
    match execStmt env hook mid st s with
    | .error e => .error e
    | .ok st2 => execBody env hook mid rest st2

/-! ### `create_module`, `exec_module`, `shim` -/

/-- The upper module object `create_module` builds: a fresh copy from the
spec when the upper name is locatable, else a bare `ModuleType`. -/
def upperModuleObj (env : Env) (f : FinderCfg) : MObj :=
  match env.spec f.upperName with
  | some uspec =>
    { name := f.upperName, spec := some uspec, dict := emptyDict, merged := none }
  | none => { name := f.upperName, spec := none, dict := emptyDict, merged := none }

/-- The state after `create_module`'s construction path: allocate the
fresh unexecuted lower copy, the upper module, and the `MergedModule`
(whose `_lower`/`_upper` point at the two fresh copies), then fill the
finder cache.  Allocation ids are the successive heap lengths. -/
def builtState (env : Env) (f : FinderCfg) (st : St) (lspec : ModSpec) : St :=
  ((((st.alloc
      { name := f.lowerName, spec := some lspec, dict := emptyDict,
        merged := none }).2.alloc
      (upperModuleObj env f)).2.alloc
      { name := f.mergedName, spec := none, dict := emptyDict,
        merged := some ⟨st.heap.length + 1, st.heap.length, f.key⟩ }).2).setCache f.key
    (some (st.heap.length + 2))

/-- `MergedModuleLoader.create_module`: cache hit returns the cached
module; otherwise the lower layer must be locatable (`find_spec` on the
lower name, `ImportError` when absent), a fresh unexecuted copy of it is
made, the upper module is located (falling back to a bare `ModuleType`
when absent), the `MergedModule` is allocated, and the cache filled. -/
def createModule (env : Env) (f : FinderCfg) (st : St) : Except String (Nat × St) :=
  match st.cache f.key with
  | some mid => .ok (mid, st)
  | none =>
    match env.spec f.lowerName with
    | none => .error ("No module named " ++ f.lowerName)
    | some lspec => .ok (st.heap.length + 2, builtState env f st lspec)

/-- The lower phase of `exec_module` (lines 362-372): install the fresh
lower copy under the lower name in `sys.modules`, execute it with the
hook active, then delete the `sys.modules` entry. -/
def execLowerPhase (env : Env) (f : FinderCfg) (info : MergedInfo) (st : St) :
    Except String St :=
  let st1 := st.setSysMod f.lowerName (some info.lowerId)
  match (st1.getObj info.lowerId).bind (·.spec) with
  | some sp =>
    match execBody env (some f) info.lowerId sp.body st1 with
    | .error e => .error e
    | .ok st2 => .ok (st2.setSysMod f.lowerName none)
  | none => .ok (st1.setSysMod f.lowerName none)

/-- The tail of `exec_module`: copy the upper module's public attributes
over the merged dict, then patch globals of lower-originated values. -/
def execUpperCopy (f : FinderCfg) (info : MergedInfo) (st5 : St) (mid : Nat) : St :=
  let upperDict := ((st5.getObj info.upperId).map (·.dict)).getD emptyDict
  (st5.withDict mid (fun d => dictUpdate d (pubFilter upperDict))).withDict mid
    (patchLoop f.mergedName f.lowerName)

/-- The part of `exec_module` after the lower phase: copy the lower
layer's public attributes over the merged dict, execute the upper module
without the hook, then copy its attributes and patch globals. -/
def execAfterLower (env : Env) (f : FinderCfg) (mid : Nat) (info : MergedInfo)
    (st3 : St) : Except String St :=
  let st4 := st3.withDict mid
    (fun d => dictUpdate d
      (pubFilter (((st3.getObj info.lowerId).map (fun o => o.dict)).getD emptyDict)))
  match (st4.getObj info.upperId).bind (fun o => o.spec) with
  | some sp =>
    match execBody env none info.upperId sp.body st4 with
    | .error e => .error e
    | .ok st5 => .ok (execUpperCopy f info st5 mid)
  | none => .ok (execUpperCopy f info st4 mid)

/-- `MergedModuleLoader.exec_module`: run the lower phase, copy the
lower layer's public attributes, execute the upper module without the
hook, copy its public attributes over, then patch globals of every value
originating from the lower module. -/
def execModule (env : Env) (f : FinderCfg) (mid : Nat) (st : St) : Except String St :=
  match (st.getObj mid).bind (fun o => o.merged) with
  | none => .error "not a merged module"
  | some info =>
    match execLowerPhase env f info st with
    | .error e => .error e
    | .ok st3 => execAfterLower env f mid info st3

/-- One `create_module` / `exec_module` round of `shim`: create (or fetch
from cache), bind the mount name in `sys.modules`, execute. -/
def buildOnce (env : Env) (f : FinderCfg) (st1 : St) : Except String (Nat × St) :=
  match createModule env f st1 with
  | .error e => .error e
  | .ok (mid, s) =>
    match execModule env f mid (s.setSysMod f.mergedName (some mid)) with
    | .error e => .error e
    | .ok s2 => .ok (mid, s2)

/-- The construction path of `shim`: a fresh finder (with a fresh, empty
cache) is installed; `import_module(merged_name)` builds and executes the
merged module unless the mount name is already bound in `sys.modules`;
then `shim` explicitly re-creates it (a cache hit) and re-executes it
(lines 662-669). -/
def shimBuild (env : Env) (f : FinderCfg) (st0 : St) : Except String (Nat × St) :=
  let st := { st0 with cache := fun _ => none }
  match st.sysMods f.mergedName with
  | some _ => buildOnce env f st
  | none =>
    match buildOnce env f st with
    | .error e => .error e
    | .ok (_, s2) => buildOnce env f s2

/-- `shim` after argument validation: if the mount name is already bound
in `sys.modules` to a `MergedModule`, return it unchanged (regardless of
the requested layer pair); otherwise build. -/
def shimModel (env : Env) (lower upper mount : String) (st : St) :
    Except String (Nat × St) :=
  match st.sysMods mount with
  | some i =>
    if ((st.getObj i).bind (·.merged)).isSome then .ok (i, st)
    else shimBuild env ⟨mount, upper, lower⟩ st
  | none => shimBuild env ⟨mount, upper, lower⟩ st

/-! ## Support lemmas: strings -/

theorem strData_append (a b : String) : (a ++ b).data = a.data ++ b.data := rfl

theorem isPrefixOf_self_append (l t : List Char) : l.isPrefixOf (l ++ t) = true := by
  induction l with
  | nil => simp [List.isPrefixOf]
  | cons a as ih => simp [List.isPrefixOf, ih]

theorem replaceFirstL_of_prefixOf (old new s : List Char) (h : old.isPrefixOf s = true) :
    replaceFirstL old new s = new ++ s.drop old.length := by
  cases s with
  | nil =>
    cases old with
    | nil => simp [replaceFirstL]
    | cons a as => simp [List.isPrefixOf] at h
  | cons c cs => simp [replaceFirstL, h]

/-- `s.replace(s, t, 1) = t`. -/
theorem pyReplace1_self (s t : String) : pyReplace1 s s t = t := by
  apply String.ext
  show replaceFirstL s.data t.data s.data = t.data
  rw [replaceFirstL_of_prefixOf _ _ _ (by simp [isPrefixOf_self_append s.data []])]
  simp

/-- Rewriting a strict dotted descendant of the root replaces exactly the
leading root segment, once. -/
theorem pyReplace1_descendant (root repl rest : String) :
    pyReplace1 (root ++ "." ++ rest) root repl = repl ++ "." ++ rest := by
  apply String.ext
  show replaceFirstL root.data repl.data (root ++ "." ++ rest).data = (repl ++ "." ++ rest).data
  have hdata : (root ++ "." ++ rest).data = root.data ++ ('.' :: rest.data) := by
    rw [strData_append, strData_append, List.append_assoc]; rfl
  rw [hdata, replaceFirstL_of_prefixOf _ _ _ (isPrefixOf_self_append _ _),
    List.drop_left]
  rw [strData_append, strData_append, List.append_assoc]; rfl

theorem pyStartsWith_self_append (p t : String) : pyStartsWith (p ++ t) p = true := by
  show p.data.isPrefixOf (p ++ t).data = true
  rw [strData_append]; exact isPrefixOf_self_append _ _

/-! ## Support lemmas: dictionaries

With dictionaries as partial maps, the lookup laws of the copy and patch
steps are definitional. -/

theorem dictUpdate_lookup (d1 d2 : Dict) (k : String) :
    dictUpdate d1 d2 k = (d2 k).orElse (fun _ => d1 k) := rfl

theorem pubFilter_lookup_pub (d : Dict) (k : String) (h : pyStartsWith k "__" = false) :
    pubFilter d k = d k := by simp [pubFilter, h]

theorem pubFilter_lookup_dunder (d : Dict) (k : String) (h : pyStartsWith k "__" = true) :
    pubFilter d k = none := by simp [pubFilter, h]

/-- The copy step leaves double-underscore names untouched and otherwise
performs override-over-base. -/
theorem copyStep_lookup (d0 lowerDict upperDict : Dict) (k : String) :
    copyStep d0 lowerDict upperDict k =
      if pyStartsWith k "__" then d0 k
      else (upperDict k).orElse (fun _ => (lowerDict k).orElse (fun _ => d0 k)) := by
  by_cases h : pyStartsWith k "__"
  · simp [copyStep, dictUpdate, pubFilter, h]
  · simp only [Bool.not_eq_true] at h
    simp [copyStep, dictUpdate, pubFilter, h]

/-- Lookup of a public name present in the override layer after copy and
patch: the override value wins, patched when its module tag is the lower
name. -/
theorem copyAndPatch_lookup_upper (mergedN lowerN : String) (d0 lowerDict upperDict : Dict)
    (k : String) (vu : PyVal) (hpub : pyStartsWith k "__" = false)
    (hu : upperDict k = some vu) :
    copyAndPatch mergedN lowerN d0 lowerDict upperDict k =
      some (patchEntry mergedN lowerN vu) := by
  simp [copyAndPatch, patchLoop, copyStep_lookup, hpub, hu, Option.orElse]

/-- Lookup of a public name present only in the base layer after copy and
patch. -/
theorem copyAndPatch_lookup_lower (mergedN lowerN : String) (d0 lowerDict upperDict : Dict)
    (k : String) (vl : PyVal) (hpub : pyStartsWith k "__" = false)
    (hu : upperDict k = none) (hl : lowerDict k = some vl) :
    copyAndPatch mergedN lowerN d0 lowerDict upperDict k =
      some (patchEntry mergedN lowerN vl) := by
  simp [copyAndPatch, patchLoop, copyStep_lookup, hpub, hu, hl, Option.orElse]

/-- A value that does not carry the lower module's tag is not patched. -/
theorem patchEntry_untagged (mergedN lowerN : String) (v : PyVal)
    (h : v.tagOf ≠ some lowerN) : patchEntry mergedN lowerN v = v := by
  simp [patchEntry, h]


/-! ## Support lemmas: state operations -/

theorem listModify_length (l : List MObj) (i : Nat) (g : MObj → MObj) :
    (listModify l i g).length = l.length := by
  induction l generalizing i with
  | nil => rfl
  | cons x xs ih =>
    cases i with
    | zero => rfl
    | succ n => simp [listModify, ih]

theorem listModify_get_ne (l : List MObj) (i j : Nat) (g : MObj → MObj) (h : j ≠ i) :
    (listModify l i g).get? j = l.get? j := by
  induction l generalizing i j with
  | nil => rfl
  | cons x xs ih =>
    cases i with
    | zero =>
      cases j with
      | zero => exact absurd rfl h
      | succ m => rfl
    | succ n =>
      cases j with
      | zero => rfl
      | succ m => simpa [listModify] using ih n m (by omega)

theorem listModify_get_self (l : List MObj) (i : Nat) (g : MObj → MObj) :
    (listModify l i g).get? i = (l.get? i).map g := by
  induction l generalizing i with
  | nil => rfl
  | cons x xs ih =>
    cases i with
    | zero => rfl
    | succ n => simpa [listModify] using ih n

theorem getObj_withDict_ne (st : St) (j : Nat) (g : Dict → Dict) (i : Nat) (h : i ≠ j) :
    (st.withDict j g).getObj i = st.getObj i :=
  listModify_get_ne st.heap j i _ h

theorem getObj_withDict_self (st : St) (j : Nat) (g : Dict → Dict) :
    (st.withDict j g).getObj j = (st.getObj j).map (fun o => { o with dict := g o.dict }) :=
  listModify_get_self st.heap j _

theorem heapLen_withDict (st : St) (j : Nat) (g : Dict → Dict) :
    (st.withDict j g).heap.length = st.heap.length :=
  listModify_length st.heap j _

theorem sysMods_withDict (st : St) (j : Nat) (g : Dict → Dict) :
    (st.withDict j g).sysMods = st.sysMods := rfl

theorem cache_withDict (st : St) (j : Nat) (g : Dict → Dict) :
    (st.withDict j g).cache = st.cache := rfl

theorem alloc_fst (st : St) (o : MObj) : (st.alloc o).1 = st.heap.length := rfl

theorem getObj_alloc_lt (st : St) (o : MObj) (i : Nat) (h : i < st.heap.length) :
    (st.alloc o).2.getObj i = st.getObj i :=
  List.get?_append h

theorem getObj_alloc_self (st : St) (o : MObj) :
    (st.alloc o).2.getObj st.heap.length = some o := by
  show (st.heap ++ [o]).get? st.heap.length = some o
  rw [List.get?_append_right (Nat.le_refl _)]
  simp

theorem heapLen_alloc (st : St) (o : MObj) :
    (st.alloc o).2.heap.length = st.heap.length + 1 := by
  show (st.heap ++ [o]).length = _
  simp

theorem sysMods_alloc (st : St) (o : MObj) : (st.alloc o).2.sysMods = st.sysMods := rfl

theorem cache_alloc (st : St) (o : MObj) : (st.alloc o).2.cache = st.cache := rfl

theorem sysMods_setSysMod (st : St) (n : String) (v : Option Nat) (k : String) :
    (st.setSysMod n v).sysMods k = if k = n then v else st.sysMods k := rfl

theorem heap_setSysMod (st : St) (n : String) (v : Option Nat) :
    (st.setSysMod n v).heap = st.heap := rfl

theorem cache_setSysMod (st : St) (n : String) (v : Option Nat) :
    (st.setSysMod n v).cache = st.cache := rfl

theorem getObj_setSysMod (st : St) (n : String) (v : Option Nat) (i : Nat) :
    (st.setSysMod n v).getObj i = st.getObj i := rfl

/-- The skeleton of a module object: everything except its mutable dict. -/
def skel (o : MObj) : String × Option ModSpec × Option MergedInfo := (o.name, o.spec, o.merged)

theorem skel_withDict (st : St) (j : Nat) (g : Dict → Dict) (i : Nat) :
    ((st.withDict j g).getObj i).map skel = (st.getObj i).map skel := by
  by_cases h : i = j
  · rw [h, getObj_withDict_self]
    cases h2 : st.getObj j <;> simp [h2, skel]
  · rw [getObj_withDict_ne st j g i h]

/-- Bundled frame facts of one resolver step: the heap only grows, the
skeleton (name, spec, provenance) of every pre-existing module survives,
modules outside `ex` are untouched, the finder cache is untouched, and
`sys.modules` entries are only ever added (never rebound), any addition
pointing at a freshly allocated module. -/
structure Trans (ex : List Nat) (st st' : St) : Prop where
  len : st.heap.length ≤ st'.heap.length
  skelPres : ∀ i, i < st.heap.length → (st'.getObj i).map skel = (st.getObj i).map skel
  pres : ∀ i, i < st.heap.length → i ∉ ex → st'.getObj i = st.getObj i
  cacheEq : st'.cache = st.cache
  keep : ∀ m j, st.sysMods m = some j → st'.sysMods m = some j
  fresh : ∀ m, st'.sysMods m = st.sysMods m ∨ ∃ j, st'.sysMods m = some j ∧ st.heap.length ≤ j

theorem Trans.reflStep (ex : List Nat) (st : St) : Trans ex st st :=
  ⟨Nat.le_refl _, fun _ _ => rfl, fun _ _ _ => rfl, rfl, fun _ _ h => h, fun _ => Or.inl rfl⟩

theorem Trans.compStep {ex : List Nat} {s1 s2 s3 : St}
    (h1 : Trans ex s1 s2) (h2 : Trans ex s2 s3) : Trans ex s1 s3 := by
  refine ⟨Nat.le_trans h1.len h2.len, ?_, ?_, h2.cacheEq.trans h1.cacheEq, ?_, ?_⟩
  · intro i hi
    rw [h2.skelPres i (Nat.lt_of_lt_of_le hi h1.len), h1.skelPres i hi]
  · intro i hi hex
    rw [h2.pres i (Nat.lt_of_lt_of_le hi h1.len) hex, h1.pres i hi hex]
  · intro m j h
    exact h2.keep m j (h1.keep m j h)
  · intro m
    rcases h2.fresh m with h | ⟨j, hj, hlen⟩
    · rw [h]
      exact h1.fresh m
    · exact Or.inr ⟨j, hj, Nat.le_trans h1.len hlen⟩

theorem Trans.mono {ex ex2 : List Nat} {s1 s2 : St}
    (h : Trans ex s1 s2) (hsub : ∀ i, i ∈ ex → i ∈ ex2) : Trans ex2 s1 s2 :=
  ⟨h.len, h.skelPres, fun i hi hex => h.pres i hi (fun hc => hex (hsub i hc)),
    h.cacheEq, h.keep, h.fresh⟩

theorem trans_alloc (ex : List Nat) (st : St) (o : MObj) : Trans ex st (st.alloc o).2 := by
  refine ⟨by rw [heapLen_alloc]; omega, ?_, ?_, rfl, fun _ _ h => h, fun _ => Or.inl rfl⟩
  · intro i hi
    rw [getObj_alloc_lt st o i hi]
  · intro i hi _
    exact getObj_alloc_lt st o i hi

theorem trans_withDict (ex : List Nat) (st : St) (mid : Nat) (g : Dict → Dict)
    (hmem : mid ∈ ex) : Trans ex st (st.withDict mid g) := by
  refine ⟨by rw [heapLen_withDict], fun i _ => skel_withDict st mid g i, ?_, rfl,
    fun _ _ h => h, fun _ => Or.inl rfl⟩
  intro i _ hex
  exact getObj_withDict_ne st mid g i (fun he => hex (he ▸ hmem))

theorem trans_nativeImport {env : Env} {n : String} {st : St} {rid : Nat} {st2 : St}
    (ex : List Nat) (h : nativeImport env n st = .ok (rid, st2)) : Trans ex st st2 := by
  unfold nativeImport at h
  cases hsm : st.sysMods n with
  | some i =>
    rw [hsm] at h
    cases h
    exact Trans.reflStep ex st
  | none =>
    rw [hsm] at h
    cases hb : env.bound n with
    | none => rw [hb] at h; cases h
    | some d =>
      rw [hb] at h
      cases h
      set o : MObj := { name := n, spec := none, dict := d, merged := none } with ho
      refine ⟨?_, ?_, ?_, rfl, ?_, ?_⟩
      · rw [heap_setSysMod, heapLen_alloc]
        omega
      · intro i hi
        rw [getObj_setSysMod, getObj_alloc_lt st o i hi]
      · intro i hi _
        rw [getObj_setSysMod, getObj_alloc_lt st o i hi]
      · intro m j hj
        rw [sysMods_setSysMod]
        split
        · next he => rw [he, hsm] at hj; cases hj
        · exact hj
      · intro m
        rw [sysMods_setSysMod]
        split
        · exact Or.inr ⟨st.heap.length, rfl, Nat.le_refl _⟩
        · exact Or.inl rfl

theorem trans_doImport {env : Env} {f : FinderCfg} {caller n : String} {st : St}
    {rid : Nat} {st2 : St} (ex : List Nat)
    (h : doImport env f caller n st = .ok (rid, st2)) : Trans ex st st2 := by
  unfold doImport at h
  dsimp only at h
  split at h
  · cases h
    exact Trans.reflStep ex st
  · split at h
    · cases h
    · next r2 s2 heq =>
      have ht := trans_nativeImport ex heq
      split at h <;> (cases h; exact ht)

theorem trans_execStmt {env : Env} {hook : Option FinderCfg} {mid : Nat} {st : St}
    {s : Stmt} {st2 : St} (ex : List Nat) (hmem : mid ∈ ex)
    (h : execStmt env hook mid st s = .ok st2) : Trans ex st st2 := by
  cases s with
  | assign k v =>
    cases h
    exact trans_withDict ex st mid _ hmem
  | imp target bindAs =>
    unfold execStmt at h
    cases hook with
    | some f =>
      dsimp only at h
      split at h
      · cases h
      · next r2 s2 heq =>
        cases h
        exact (trans_doImport ex heq).compStep (trans_withDict ex s2 mid _ hmem)
    | none =>
      dsimp only at h
      split at h
      · cases h
      · next r2 s2 heq =>
        cases h
        exact (trans_nativeImport ex heq).compStep (trans_withDict ex s2 mid _ hmem)

theorem trans_execBody {env : Env} {hook : Option FinderCfg} {mid : Nat}
    {body : List Stmt} {st : St} {st2 : St} (ex : List Nat) (hmem : mid ∈ ex)
    (h : execBody env hook mid body st = .ok st2) : Trans ex st st2 := by
  induction body generalizing st with
  | nil =>
    cases h
    exact Trans.reflStep ex _
  | cons s rest ih =>
    unfold execBody at h
    split at h
    · cases h
    · next stm heq =>
      exact (trans_execStmt ex hmem heq).compStep (ih h)


/-! ## Phase-level frame lemmas -/

theorem execLowerPhase_ok {env : Env} {f : FinderCfg} {info : MergedInfo} {st st2 : St}
    (h : execLowerPhase env f info st = .ok st2) :
    st2.sysMods f.lowerName = none ∧
    st.heap.length ≤ st2.heap.length ∧
    st2.cache = st.cache ∧
    (∀ i, i < st.heap.length → (st2.getObj i).map skel = (st.getObj i).map skel) ∧
    (∀ i, i < st.heap.length → i ≠ info.lowerId → st2.getObj i = st.getObj i) ∧
    (∀ n j, n ≠ f.lowerName → st.sysMods n = some j → st2.sysMods n = some j) ∧
    (∀ n, n ≠ f.lowerName → st2.sysMods n = st.sysMods n ∨
      ∃ j, st2.sysMods n = some j ∧ st.heap.length ≤ j) := by
  unfold execLowerPhase at h
  dsimp only at h
  split at h
  · next sp hsp =>
    split at h
    · cases h
    · next stB heq =>
      cases h
      have ht : Trans [info.lowerId] (st.setSysMod f.lowerName (some info.lowerId)) stB :=
        trans_execBody _ (by simp) heq
      refine ⟨by simp [St.setSysMod], ht.len, ht.cacheEq,
        fun i hi => ht.skelPres i hi, ?_, ?_, ?_⟩
      · intro i hi hne
        exact ht.pres i hi (by simp [hne])
      · intro n j hn hj
        have h1 : (st.setSysMod f.lowerName (some info.lowerId)).sysMods n = some j := by
          simp [St.setSysMod, hn, hj]
        have h2 := ht.keep n j h1
        simp only [St.setSysMod] at h2 ⊢
        simpa [hn] using h2
      · intro n hn
        rcases ht.fresh n with hsame | ⟨j, hj, hl⟩
        · left
          simp only [St.setSysMod] at hsame ⊢
          simpa [hn] using hsame
        · right
          refine ⟨j, ?_, hl⟩
          simp only [St.setSysMod] at hj ⊢
          simpa [hn] using hj
  · cases h
    refine ⟨by simp [St.setSysMod], Nat.le_refl _, rfl, fun i _ => rfl,
      fun i _ _ => rfl, ?_, ?_⟩
    · intro n j hn hj
      simp [St.setSysMod, hn, hj]
    · intro n hn
      left
      simp [St.setSysMod, hn]


theorem execUpperCopy_sysMods (f : FinderCfg) (info : MergedInfo) (st5 : St) (mid : Nat) :
    (execUpperCopy f info st5 mid).sysMods = st5.sysMods := rfl

theorem execUpperCopy_cache (f : FinderCfg) (info : MergedInfo) (st5 : St) (mid : Nat) :
    (execUpperCopy f info st5 mid).cache = st5.cache := rfl

theorem execUpperCopy_len (f : FinderCfg) (info : MergedInfo) (st5 : St) (mid : Nat) :
    (execUpperCopy f info st5 mid).heap.length = st5.heap.length := by
  unfold execUpperCopy
  rw [heapLen_withDict, heapLen_withDict]

theorem execUpperCopy_getObj_ne (f : FinderCfg) (info : MergedInfo) (st5 : St)
    (mid i : Nat) (h : i ≠ mid) :
    (execUpperCopy f info st5 mid).getObj i = st5.getObj i := by
  unfold execUpperCopy
  rw [getObj_withDict_ne _ _ _ _ h, getObj_withDict_ne _ _ _ _ h]

theorem execUpperCopy_skel (f : FinderCfg) (info : MergedInfo) (st5 : St) (mid i : Nat) :
    ((execUpperCopy f info st5 mid).getObj i).map skel = (st5.getObj i).map skel := by
  unfold execUpperCopy
  rw [skel_withDict, skel_withDict]

theorem execUpperCopy_getObj_self (f : FinderCfg) (info : MergedInfo) (st5 : St)
    (mid : Nat) :
    (execUpperCopy f info st5 mid).getObj mid =
      ((st5.getObj mid).map (fun o => { o with dict := (dictUpdate o.dict
        (pubFilter (((st5.getObj info.upperId).map
          (fun o2 : MObj => o2.dict)).getD emptyDict))) })).map
        (fun o => { o with dict := patchLoop f.mergedName f.lowerName o.dict }) := by
  unfold execUpperCopy
  dsimp only
  rw [getObj_withDict_self, getObj_withDict_self]

/-- Frame facts of the copy-upper-then-patch tail relative to the state
`st3` that followed the lower phase. -/
theorem tailTrans {f : FinderCfg} {info : MergedInfo} {mid : Nat} {g : Dict → Dict}
    {st3 st5 : St} (ht : Trans [info.upperId] (st3.withDict mid g) st5) :
    st3.heap.length ≤ (execUpperCopy f info st5 mid).heap.length ∧
    (execUpperCopy f info st5 mid).cache = st3.cache ∧
    (∀ i, i < st3.heap.length →
      ((execUpperCopy f info st5 mid).getObj i).map skel = (st3.getObj i).map skel) ∧
    (∀ i, i < st3.heap.length → i ≠ mid → i ≠ info.upperId →
      (execUpperCopy f info st5 mid).getObj i = st3.getObj i) ∧
    (∀ n j, st3.sysMods n = some j → (execUpperCopy f info st5 mid).sysMods n = some j) ∧
    (∀ n, (execUpperCopy f info st5 mid).sysMods n = st3.sysMods n ∨
      ∃ j, (execUpperCopy f info st5 mid).sysMods n = some j ∧ st3.heap.length ≤ j) := by
  have hlen4 : (st3.withDict mid g).heap.length = st3.heap.length := heapLen_withDict _ _ _
  refine ⟨?_, ?_, ?_, ?_, ?_, ?_⟩
  · rw [execUpperCopy_len]
    have := ht.len
    rw [hlen4] at this
    exact this
  · rw [execUpperCopy_cache, ht.cacheEq, cache_withDict]
  · intro i hi
    rw [execUpperCopy_skel, ht.skelPres i (by rw [hlen4]; exact hi), skel_withDict]
  · intro i hi hmid hupper
    rw [execUpperCopy_getObj_ne _ _ _ _ _ hmid,
      ht.pres i (by rw [hlen4]; exact hi) (by simp [hupper]),
      getObj_withDict_ne _ _ _ _ hmid]
  · intro n j hj
    rw [execUpperCopy_sysMods]
    exact ht.keep n j (by rw [sysMods_withDict]; exact hj)
  · intro n
    rw [execUpperCopy_sysMods]
    rcases ht.fresh n with hsame | ⟨j, hj, hl⟩
    · left
      rw [hsame, sysMods_withDict]
    · right
      refine ⟨j, hj, ?_⟩
      rw [hlen4] at hl
      exact hl

/-- Frame facts of the post-lower-phase tail of `exec_module`. -/
theorem execAfterLower_ok {env : Env} {f : FinderCfg} {mid : Nat} {info : MergedInfo}
    {st3 st' : St} (h : execAfterLower env f mid info st3 = .ok st') :
    st3.heap.length ≤ st'.heap.length ∧
    st'.cache = st3.cache ∧
    (∀ i, i < st3.heap.length → (st'.getObj i).map skel = (st3.getObj i).map skel) ∧
    (∀ i, i < st3.heap.length → i ≠ mid → i ≠ info.upperId →
      st'.getObj i = st3.getObj i) ∧
    (∀ n j, st3.sysMods n = some j → st'.sysMods n = some j) ∧
    (∀ n, st'.sysMods n = st3.sysMods n ∨
      ∃ j, st'.sysMods n = some j ∧ st3.heap.length ≤ j) := by
  unfold execAfterLower at h
  dsimp only at h
  split at h
  · next sp hsp =>
    split at h
    · cases h
    · next st5 heq5 =>
      cases h
      exact tailTrans (trans_execBody _ (by simp) heq5)
  · next hsp =>
    cases h
    exact tailTrans (Trans.reflStep _ _)

/-- Frame facts of `exec_module`: the heap only grows, pre-existing
modules outside the three participants are untouched, skeletons survive,
the cache is untouched, `sys.modules` entries other than the lower name
are never rebound, and the lower name ends deleted or rebound to a
freshly created module. -/
theorem execModule_ok {env : Env} {f : FinderCfg} {mid : Nat} {st st' : St}
    (h : execModule env f mid st = .ok st') :
    ∃ info, (st.getObj mid).bind (fun o => o.merged) = some info ∧
      st.heap.length ≤ st'.heap.length ∧
      st'.cache = st.cache ∧
      (∀ i, i < st.heap.length → (st'.getObj i).map skel = (st.getObj i).map skel) ∧
      (∀ i, i < st.heap.length → i ≠ mid → i ≠ info.lowerId → i ≠ info.upperId →
        st'.getObj i = st.getObj i) ∧
      (∀ n j, n ≠ f.lowerName → st.sysMods n = some j → st'.sysMods n = some j) ∧
      (st'.sysMods f.lowerName = none ∨
        ∃ j, st'.sysMods f.lowerName = some j ∧ st.heap.length ≤ j) ∧
      (∀ n, n ≠ f.lowerName → st'.sysMods n = st.sysMods n ∨
        ∃ j, st'.sysMods n = some j ∧ st.heap.length ≤ j) := by
  unfold execModule at h
  split at h
  · cases h
  · next info hinfo =>
    refine ⟨info, hinfo, ?_⟩
    split at h
    · cases h
    · next st3 heq3 =>
      obtain ⟨hl0, hl1, hl2, hl3, hl4, hl5, hl6⟩ := execLowerPhase_ok heq3
      obtain ⟨t1, t2, t3, t4, t5, t6⟩ := execAfterLower_ok h
      refine ⟨Nat.le_trans hl1 t1, t2.trans hl2, ?_, ?_, ?_, ?_, ?_⟩
      · intro i hi
        rw [t3 i (Nat.lt_of_lt_of_le hi hl1), hl3 i hi]
      · intro i hi hmid hlow hupp
        rw [t4 i (Nat.lt_of_lt_of_le hi hl1) hmid hupp, hl4 i hi hlow]
      · intro n j hn hj
        exact t5 n j (hl5 n j hn hj)
      · rcases t6 f.lowerName with hsame | ⟨j, hj, hl⟩
        · left
          rw [hsame, hl0]
        · right
          exact ⟨j, hj, Nat.le_trans hl1 hl⟩
      · intro n hn
        rcases t6 n with hsame | ⟨j, hj, hl⟩
        · rw [hsame]
          exact hl6 n hn
        · right
          exact ⟨j, hj, Nat.le_trans hl1 hl⟩

/-! ## `create_module` and `shim` build lemmas -/

theorem getObj_some_lt {st : St} {i : Nat} {o : MObj} (h : st.getObj i = some o) :
    i < st.heap.length := by
  by_contra hlt
  rw [St.getObj, List.get?_eq_none.mpr (by omega)] at h
  cases h

theorem upperModuleObj_eq (env : Env) (f : FinderCfg) :
    upperModuleObj env f =
      { name := f.upperName, spec := env.spec f.upperName, dict := emptyDict,
        merged := none } := by
  unfold upperModuleObj
  cases h : env.spec f.upperName <;> simp

theorem builtState_len (env : Env) (f : FinderCfg) (st : St) (lspec : ModSpec) :
    (builtState env f st lspec).heap.length = st.heap.length + 3 := by
  unfold builtState
  show ((((st.alloc _).2.alloc _).2.alloc _).2).heap.length = _
  rw [heapLen_alloc, heapLen_alloc, heapLen_alloc]

theorem builtState_getObj_lt (env : Env) (f : FinderCfg) (st : St) (lspec : ModSpec)
    (i : Nat) (hi : i < st.heap.length) :
    (builtState env f st lspec).getObj i = st.getObj i := by
  unfold builtState
  show ((((st.alloc _).2.alloc _).2.alloc _).2).getObj i = _
  rw [getObj_alloc_lt _ _ i (by rw [heapLen_alloc, heapLen_alloc]; omega),
    getObj_alloc_lt _ _ i (by rw [heapLen_alloc]; omega),
    getObj_alloc_lt _ _ i hi]

theorem builtState_getObj_lower (env : Env) (f : FinderCfg) (st : St) (lspec : ModSpec) :
    (builtState env f st lspec).getObj st.heap.length =
      some { name := f.lowerName, spec := some lspec, dict := emptyDict,
             merged := none } := by
  unfold builtState
  show ((((st.alloc _).2.alloc _).2.alloc _).2).getObj st.heap.length = _
  rw [getObj_alloc_lt _ _ _ (by rw [heapLen_alloc, heapLen_alloc]; omega),
    getObj_alloc_lt _ _ _ (by rw [heapLen_alloc]; omega),
    getObj_alloc_self]

theorem builtState_getObj_upper (env : Env) (f : FinderCfg) (st : St) (lspec : ModSpec) :
    (builtState env f st lspec).getObj (st.heap.length + 1) =
      some (upperModuleObj env f) := by
  unfold builtState
  show ((((st.alloc _).2.alloc _).2.alloc _).2).getObj (st.heap.length + 1) = _
  rw [getObj_alloc_lt _ _ _ (by rw [heapLen_alloc, heapLen_alloc]; omega)]
  have h := getObj_alloc_self (st.alloc
    { name := f.lowerName, spec := some lspec, dict := emptyDict, merged := none }).2
    (upperModuleObj env f)
  rw [heapLen_alloc] at h
  exact h

theorem builtState_getObj_merged (env : Env) (f : FinderCfg) (st : St) (lspec : ModSpec) :
    (builtState env f st lspec).getObj (st.heap.length + 2) =
      some { name := f.mergedName, spec := none, dict := emptyDict,
             merged := some ⟨st.heap.length + 1, st.heap.length, f.key⟩ } := by
  unfold builtState
  show ((((st.alloc _).2.alloc _).2.alloc _).2).getObj (st.heap.length + 2) = _
  have h := getObj_alloc_self ((st.alloc
    { name := f.lowerName, spec := some lspec, dict := emptyDict,
      merged := none }).2.alloc (upperModuleObj env f)).2
    { name := f.mergedName, spec := none, dict := emptyDict,
      merged := some ⟨st.heap.length + 1, st.heap.length, f.key⟩ }
  rw [heapLen_alloc, heapLen_alloc] at h
  exact h

theorem builtState_sysMods (env : Env) (f : FinderCfg) (st : St) (lspec : ModSpec) :
    (builtState env f st lspec).sysMods = st.sysMods := rfl

theorem builtState_cache_key (env : Env) (f : FinderCfg) (st : St) (lspec : ModSpec) :
    (builtState env f st lspec).cache f.key = some (st.heap.length + 2) := by
  show (if f.key = f.key then _ else _) = _
  rw [if_pos rfl]

/-- Inversion of `create_module`: either the key was cached and the state
is untouched, or the lower layer was locatable and the state is the fresh
three-object build. -/
theorem createModule_inv {env : Env} {f : FinderCfg} {st : St} {mid : Nat} {s : St}
    (h : createModule env f st = .ok (mid, s)) :
    (st.cache f.key = some mid ∧ s = st) ∨
    (st.cache f.key = none ∧ ∃ lspec, env.spec f.lowerName = some lspec ∧
      mid = st.heap.length + 2 ∧ s = builtState env f st lspec) := by
  unfold createModule at h
  split at h
  · next mid0 hc =>
    cases h
    exact Or.inl ⟨hc, rfl⟩
  · next hc =>
    split at h
    · cases h
    · next lspec hl =>
      cases h
      exact Or.inr ⟨hc, lspec, hl, rfl, rfl⟩

/-- A `buildOnce` round on an empty cache performs the fresh build: the
result is the merged module allocated above the old heap, old modules are
untouched, the cache records the key, and (when the mount name differs
from the lower name) `sys.modules` keeps the mount binding. -/
theorem buildOnce_ok_empty {env : Env} {f : FinderCfg} {st1 : St} {r : Nat} {st' : St}
    (hc : st1.cache f.key = none) (h : buildOnce env f st1 = .ok (r, st')) :
    r = st1.heap.length + 2 ∧
    (∀ i, i < st1.heap.length → st'.getObj i = st1.getObj i) ∧
    (st'.getObj r).map skel =
      some (f.mergedName, none, some ⟨st1.heap.length + 1, st1.heap.length, f.key⟩) ∧
    st'.cache f.key = some r ∧
    st1.heap.length ≤ st'.heap.length ∧
    (f.mergedName ≠ f.lowerName → st'.sysMods f.mergedName = some r) := by
  unfold buildOnce at h
  split at h
  · cases h
  · next mid s heq1 =>
    rcases createModule_inv heq1 with ⟨hhit, _⟩ | ⟨_, lspec, hl, hmid, hs⟩
    · rw [hhit] at hc
      cases hc
    · subst hmid
      subst hs
      split at h
      · cases h
      · next s5 heq2 =>
        cases h
        obtain ⟨info2, hinfo2, len2, cache2, skel2, pres2, keep2, low2, fresh2⟩ :=
          execModule_ok heq2
        have hml : ((builtState env f st1 lspec).setSysMod f.mergedName
            (some (st1.heap.length + 2))).getObj (st1.heap.length + 2) =
            some { name := f.mergedName, spec := none, dict := emptyDict,
                   merged := some ⟨st1.heap.length + 1, st1.heap.length, f.key⟩ } := by
          rw [getObj_setSysMod, builtState_getObj_merged]
        rw [hml] at hinfo2
        have h9 : some (⟨st1.heap.length + 1, st1.heap.length, f.key⟩ : MergedInfo) =
            some info2 := hinfo2
        have hinfo2e : info2 = ⟨st1.heap.length + 1, st1.heap.length, f.key⟩ :=
          (Option.some.inj h9).symm
        subst hinfo2e
        have hlen4 : ((builtState env f st1 lspec).setSysMod f.mergedName
            (some (st1.heap.length + 2))).heap.length = st1.heap.length + 3 := by
          rw [heap_setSysMod, builtState_len]
        refine ⟨rfl, ?_, ?_, ?_, ?_, ?_⟩
        · intro i hi
          have hiu : i < ((builtState env f st1 lspec).setSysMod f.mergedName
              (some (st1.heap.length + 2))).heap.length := by rw [hlen4]; omega
          have e1 : i ≠ st1.heap.length + 2 := by omega
          have e2 : i ≠ st1.heap.length := by omega
          have e3 : i ≠ st1.heap.length + 1 := by omega
          rw [pres2 i hiu e1 e2 e3, getObj_setSysMod,
            builtState_getObj_lt env f st1 lspec i hi]
        · have hiu : st1.heap.length + 2 < ((builtState env f st1 lspec).setSysMod
              f.mergedName (some (st1.heap.length + 2))).heap.length := by
            rw [hlen4]; omega
          rw [skel2 (st1.heap.length + 2) hiu, getObj_setSysMod,
            builtState_getObj_merged]
          rfl
        · rw [cache2, cache_setSysMod, builtState_cache_key]
        · exact Nat.le_trans (Nat.le_trans (by omega) (Nat.le_of_eq hlen4.symm)) len2
        · intro hne
          refine keep2 f.mergedName (st1.heap.length + 2) hne ?_
          rw [sysMods_setSysMod, if_pos rfl]

/-- A `buildOnce` round on a cached key re-executes the cached merged
module in place: no reallocation, untouched cache, untouched modules
outside the three participants. -/
theorem buildOnce_ok_cached {env : Env} {f : FinderCfg} {st1 : St} {r : Nat} {st' : St}
    {mid : Nat} {info : MergedInfo}
    (hc : st1.cache f.key = some mid)
    (hskel : (st1.getObj mid).map skel = some (f.mergedName, none, some info))
    (h : buildOnce env f st1 = .ok (r, st')) :
    r = mid ∧
    (∀ i, i < st1.heap.length → i ≠ mid → i ≠ info.lowerId → i ≠ info.upperId →
      st'.getObj i = st1.getObj i) ∧
    (st'.getObj mid).map skel = some (f.mergedName, none, some info) ∧
    st'.cache f.key = some mid ∧
    st1.heap.length ≤ st'.heap.length ∧
    (f.mergedName ≠ f.lowerName → st'.sysMods f.mergedName = some mid) := by
  unfold buildOnce at h
  split at h
  · cases h
  · next mid0 s heq1 =>
    rcases createModule_inv heq1 with ⟨hhit, hs⟩ | ⟨hnone, _⟩
    · rw [hc] at hhit
      have hmid0 : mid0 = mid := (Option.some.inj hhit).symm
      rw [hmid0, hs] at h
      split at h
      · cases h
      · next s5 heq2 =>
        injection h with hpair
        injection hpair with hr hst
        subst hr
        subst hst
        obtain ⟨o, ho, hosk⟩ : ∃ o, st1.getObj mid = some o ∧
            skel o = (f.mergedName, none, some info) := by
          cases hg : st1.getObj mid with
          | none => rw [hg] at hskel; cases hskel
          | some o =>
            rw [hg] at hskel
            have hval : some (skel o) = some (f.mergedName, none, some info) := hskel
            exact ⟨o, rfl, Option.some.inj hval⟩
        have hmlt : mid < st1.heap.length := getObj_some_lt ho
        obtain ⟨info2, hinfo2, len2, cache2, skel2, pres2, keep2, low2, fresh2⟩ :=
          execModule_ok heq2
        have homerged : o.merged = some info := congrArg (fun p => p.2.2) hosk
        rw [getObj_setSysMod, ho] at hinfo2
        have h9 : o.merged = some info2 := hinfo2
        rw [homerged] at h9
        have hinfo2e : info2 = info := (Option.some.inj h9).symm
        subst hinfo2e
        refine ⟨rfl, ?_, ?_, ?_, ?_, ?_⟩
        · intro i hi h1 h2 h3
          rw [pres2 i hi h1 h2 h3, getObj_setSysMod]
        · rw [skel2 mid hmlt, getObj_setSysMod, ho]
          exact congrArg some hosk
        · rw [cache2, cache_setSysMod, hc]
        · exact len2
        · intro hne
          refine keep2 f.mergedName mid hne ?_
          rw [sysMods_setSysMod, if_pos rfl]
    · rw [hc] at hnone
      cases hnone

/-- Frame and result facts of `shim`'s construction path: the result is a
fresh `MergedModule` two slots above the old heap top, recording the
requested `(upper, lower, merged)` key and two fresh layer copies below
it; every pre-existing module object is untouched; when the mount name
differs from the lower name, `sys.modules` maps the mount name to the
result. -/
theorem shimBuild_ok {env : Env} {f : FinderCfg} {st : St} {r : Nat} {st' : St}
    (h : shimBuild env f st = .ok (r, st')) :
    r = st.heap.length + 2 ∧
    (∀ i, i < st.heap.length → st'.getObj i = st.getObj i) ∧
    (st'.getObj r).map skel =
      some (f.mergedName, none, some ⟨st.heap.length + 1, st.heap.length, f.key⟩) ∧
    (f.mergedName ≠ f.lowerName → st'.sysMods f.mergedName = some r) := by
  unfold shimBuild at h
  dsimp only at h
  have hcache : ({ st with cache := fun _ => none } : St).cache f.key = none := rfl
  have hlenC : ({ st with cache := fun _ => none } : St).heap.length = st.heap.length := rfl
  split at h
  · obtain ⟨h1, h2, h3, h4, h5, h6⟩ := buildOnce_ok_empty hcache h
    exact ⟨h1, h2, h3, h6⟩
  · split at h
    · cases h
    · next r1 s2 heq1 =>
      obtain ⟨h1, h2, h3, h4, h5, h6⟩ := buildOnce_ok_empty hcache heq1
      rw [hlenC] at h5
      subst h1
      obtain ⟨g1, g2, g3, g4, g5, g6⟩ := buildOnce_ok_cached h4 h3 h
      refine ⟨g1, ?_, ?_, ?_⟩
      · intro i hi
        have hi2 : i < s2.heap.length := Nat.lt_of_lt_of_le hi h5
        have e1 : i ≠ st.heap.length + 2 := by omega
        have e2 : i ≠ st.heap.length := by omega
        have e3 : i ≠ st.heap.length + 1 := by omega
        rw [g2 i hi2 e1 e2 e3]
        exact h2 i hi
      · rw [g1]
        exact g3
      · intro hne
        rw [g1]
        exact g6 hne


/-! ## Self-mount execution lemmas -/

/-- A step of module execution that only mutates the dict of module
`tid`: no allocation, no registry or cache change. -/
structure QuietStep (tid : Nat) (st st2 : St) : Prop where
  sys : st2.sysMods = st.sysMods
  cacheEq : st2.cache = st.cache
  len : st2.heap.length = st.heap.length
  pres : ∀ i, i ≠ tid → st2.getObj i = st.getObj i
  skelPres : (st2.getObj tid).map skel = (st.getObj tid).map skel

theorem QuietStep.quietRefl (tid : Nat) (st : St) : QuietStep tid st st :=
  ⟨rfl, rfl, rfl, fun _ _ => rfl, rfl⟩

theorem QuietStep.quietComp {tid : Nat} {s1 s2 s3 : St}
    (h1 : QuietStep tid s1 s2) (h2 : QuietStep tid s2 s3) : QuietStep tid s1 s3 := by
  refine ⟨h2.sys.trans h1.sys, h2.cacheEq.trans h1.cacheEq, h2.len.trans h1.len, ?_, ?_⟩
  · intro i hi
    rw [h2.pres i hi, h1.pres i hi]
  · rw [h2.skelPres, h1.skelPres]

theorem quiet_withDict (tid : Nat) (st : St) (g : Dict → Dict) :
    QuietStep tid st (st.withDict tid g) :=
  ⟨rfl, rfl, heapLen_withDict st tid g, fun i hi => getObj_withDict_ne st tid g i hi,
    skel_withDict st tid g tid⟩

theorem getObj_setAttr_ne (st : St) (j : Nat) (k : String) (v : PyVal) (i : Nat)
    (h : i ≠ j) : (st.setAttr j k v).getObj i = st.getObj i :=
  getObj_withDict_ne st j _ i h

theorem skel_setAttr (st : St) (j : Nat) (k : String) (v : PyVal) (i : Nat) :
    ((st.setAttr j k v).getObj i).map skel = (st.getObj i).map skel :=
  skel_withDict st j _ i

theorem name_of_skel {a b : Option MObj} (h : a.map skel = b.map skel) :
    a.map (fun o => o.name) = b.map (fun o => o.name) := by
  cases a <;> cases b <;> simp_all [skel]

theorem spec_of_skel {a b : Option MObj} (h : a.map skel = b.map skel) :
    a.bind (fun o => o.spec) = b.bind (fun o => o.spec) := by
  cases a <;> cases b <;> simp_all [skel]

theorem merged_of_skel {a b : Option MObj} (h : a.map skel = b.map skel) :
    a.bind (fun o => o.merged) = b.bind (fun o => o.merged) := by
  cases a <;> cases b <;> simp_all [skel]

theorem lookupWorkingCopy_hit {f : FinderCfg} {st : St} {mid : Nat} {info : MergedInfo}
    (hc : st.cache f.key = some mid)
    (hm : (st.getObj mid).bind (fun o => o.merged) = some info) :
    lookupWorkingCopy f f.mergedName st = some info.lowerId := by
  unfold lookupWorkingCopy
  rw [if_pos (by simp), hc]
  show ((st.getObj mid).bind (fun o => o.merged)).map (fun o => o.lowerId) =
    some info.lowerId
  rw [hm]
  rfl

/-- During binding, an import whose (post-rewrite) name is the mount name
itself answers with the cached merged module's `_lower` working copy,
leaving the state untouched: the case where the mount name does not match
the lower root, so the rewrite leaves it alone. -/
theorem doImport_mountName {env : Env} {f : FinderCfg} {caller : String} {st : St}
    {mid : Nat} {info : MergedInfo}
    (hroot : nameMatchesRoot f.lowerName f.mergedName = false)
    (hc : st.cache f.key = some mid)
    (hm : (st.getObj mid).bind (fun o => o.merged) = some info) :
    doImport env f caller f.mergedName st = .ok (info.lowerId, st) := by
  unfold doImport
  dsimp only
  rw [hroot, Bool.and_false, if_neg (by simp), lookupWorkingCopy_hit hc hm]

/-- A layer module importing the lower root by its own name: the rewrite
maps it onto the mount name, and the working copy is returned. -/
theorem doImport_selfimport {env : Env} {f : FinderCfg} {st : St}
    {mid : Nat} {info : MergedInfo}
    (hc : st.cache f.key = some mid)
    (hm : (st.getObj mid).bind (fun o => o.merged) = some info) :
    doImport env f f.lowerName f.lowerName st = .ok (info.lowerId, st) := by
  unfold doImport
  dsimp only
  have hlayer : layerCaller f f.lowerName = true := by
    unfold layerCaller
    simp
  have hmatch : nameMatchesRoot f.lowerName f.lowerName = true := by
    unfold nameMatchesRoot
    simp
  rw [hlayer, hmatch, Bool.true_and, if_pos rfl, pyReplace1_self,
    lookupWorkingCopy_hit hc hm]

theorem execBody_cons_ok {env : Env} {hook : Option FinderCfg} {mid : Nat} {s : Stmt}
    {rest : List Stmt} {st stm : St}
    (hs : execStmt env hook mid st s = .ok stm) :
    execBody env hook mid (s :: rest) st = execBody env hook mid rest stm := by
  conv_lhs => unfold execBody
  rw [hs]

/-- Statements a base module may contain in the self-mount scenario:
assignments and absolute imports of the base root itself. -/
def LowerStmtOk (f : FinderCfg) : Stmt → Prop
  | .assign _ _ => True
  | .imp t _ => t = f.lowerName

/-- Statements an override module may contain in the self-mount scenario:
assignments and absolute imports of the mount point. -/
def UpperStmtOk (f : FinderCfg) : Stmt → Prop
  | .assign _ _ => True
  | .imp t _ => t = f.mergedName

theorem execBody_lower_run {env : Env} {f : FinderCfg} {mid : Nat} {info : MergedInfo}
    (body : List Stmt) (st : St)
    (hb : ∀ s ∈ body, LowerStmtOk f s)
    (hc : st.cache f.key = some mid)
    (hm : (st.getObj mid).bind (fun o => o.merged) = some info)
    (hname : (st.getObj info.lowerId).map (fun o => o.name) = some f.lowerName)
    (hne : mid ≠ info.lowerId) :
    ∃ st2, execBody env (some f) info.lowerId body st = .ok st2 ∧
      QuietStep info.lowerId st st2 := by
  induction body generalizing st with
  | nil => exact ⟨st, rfl, QuietStep.quietRefl _ _⟩
  | cons s rest ih =>
    have hs := hb s (List.mem_cons_self s rest)
    have hrest : ∀ t ∈ rest, LowerStmtOk f t := fun t ht => hb t (List.mem_cons_of_mem s ht)
    cases s with
    | assign k v =>
      have hq : QuietStep info.lowerId st (st.setAttr info.lowerId k v) :=
        quiet_withDict _ _ _
      obtain ⟨st2, hrun, hq2⟩ := ih (st.setAttr info.lowerId k v) hrest hc
        (by rw [getObj_setAttr_ne st info.lowerId k v mid hne]; exact hm)
        (by rw [name_of_skel (skel_setAttr st info.lowerId k v info.lowerId)]; exact hname)
      exact ⟨st2, hrun, hq.quietComp hq2⟩
    | imp t b =>
      have ht : t = f.lowerName := hs
      subst ht
      have hcaller : ((st.getObj info.lowerId).map (fun o => o.name)).getD "" =
          f.lowerName := by rw [hname]; rfl
      have hstmt : execStmt env (some f) info.lowerId st (.imp f.lowerName b) =
          .ok (st.setAttr info.lowerId b (.modref info.lowerId)) := by
        unfold execStmt
        dsimp only
        rw [hcaller, doImport_selfimport hc hm]
      have hq : QuietStep info.lowerId st
          (st.setAttr info.lowerId b (.modref info.lowerId)) := quiet_withDict _ _ _
      obtain ⟨st2, hrun, hq2⟩ := ih (st.setAttr info.lowerId b (.modref info.lowerId))
        hrest hc
        (by rw [getObj_setAttr_ne st info.lowerId b (.modref info.lowerId) mid hne]
            exact hm)
        (by rw [name_of_skel (skel_setAttr st info.lowerId b (.modref info.lowerId)
              info.lowerId)]
            exact hname)
      refine ⟨st2, ?_, hq.quietComp hq2⟩
      rw [execBody_cons_ok hstmt]
      exact hrun

theorem execBody_upper_run {env : Env} {f : FinderCfg} {uid : Nat} {mmid : Nat}
    (body : List Stmt) (st : St)
    (hb : ∀ s ∈ body, UpperStmtOk f s)
    (hsys : st.sysMods f.mergedName = some mmid) :
    ∃ st2, execBody env none uid body st = .ok st2 ∧ QuietStep uid st st2 := by
  induction body generalizing st with
  | nil => exact ⟨st, rfl, QuietStep.quietRefl _ _⟩
  | cons s rest ih =>
    have hs := hb s (List.mem_cons_self s rest)
    have hrest : ∀ t ∈ rest, UpperStmtOk f t := fun t ht => hb t (List.mem_cons_of_mem s ht)
    cases s with
    | assign k v =>
      have hq : QuietStep uid st (st.setAttr uid k v) := quiet_withDict _ _ _
      obtain ⟨st2, hrun, hq2⟩ := ih (st.setAttr uid k v) hrest hsys
      exact ⟨st2, hrun, hq.quietComp hq2⟩
    | imp t b =>
      have ht : t = f.mergedName := hs
      subst ht
      have hnat : nativeImport env f.mergedName st = .ok (mmid, st) := by
        unfold nativeImport
        rw [hsys]
      have hstmt : execStmt env none uid st (.imp f.mergedName b) =
          .ok (st.setAttr uid b (.modref mmid)) := by
        unfold execStmt
        dsimp only
        rw [hnat]
      have hq : QuietStep uid st (st.setAttr uid b (.modref mmid)) := quiet_withDict _ _ _
      obtain ⟨st2, hrun, hq2⟩ := ih (st.setAttr uid b (.modref mmid)) hrest hsys
      refine ⟨st2, ?_, hq.quietComp hq2⟩
      rw [execBody_cons_ok hstmt]
      exact hrun


/-- Successful execution of `exec_module` in the self-mount scenario:
the lower layer executes with every self-import answered by the working
copy, the upper layer executes with its mount import answered from
`sys.modules`, and the merged dict ends as the two-phase copy-and-patch
of the two layer dicts. -/
theorem execModule_selfmount {env : Env} {f : FinderCfg} {mid : Nat} {st : St}
    {info : MergedInfo} {lsp usp : ModSpec}
    (hm : (st.getObj mid).bind (fun o => o.merged) = some info)
    (hc : st.cache f.key = some mid)
    (hsys : st.sysMods f.mergedName = some mid)
    (hnameL : (st.getObj info.lowerId).map (fun o => o.name) = some f.lowerName)
    (hspecL : (st.getObj info.lowerId).bind (fun o => o.spec) = some lsp)
    (hspecU : (st.getObj info.upperId).bind (fun o => o.spec) = some usp)
    (hlb : ∀ s ∈ lsp.body, LowerStmtOk f s)
    (hub : ∀ s ∈ usp.body, UpperStmtOk f s)
    (hne : f.mergedName ≠ f.lowerName)
    (d1 : mid ≠ info.lowerId) (d2 : mid ≠ info.upperId)
    (d3 : info.upperId ≠ info.lowerId) :
    ∃ st7 dl du,
      execModule env f mid st = .ok st7 ∧
      st7.cache = st.cache ∧
      st7.heap.length = st.heap.length ∧
      (∀ n, n ≠ f.lowerName → st7.sysMods n = st.sysMods n) ∧
      st7.sysMods f.lowerName = none ∧
      (∀ i, i ≠ mid → i ≠ info.lowerId → i ≠ info.upperId →
        st7.getObj i = st.getObj i) ∧
      ((st7.getObj mid).map skel = (st.getObj mid).map skel) ∧
      ((st7.getObj info.lowerId).map skel = (st.getObj info.lowerId).map skel) ∧
      ((st7.getObj info.upperId).map skel = (st.getObj info.upperId).map skel) ∧
      (st7.getObj info.lowerId).map (fun o => o.dict) = some dl ∧
      (st7.getObj info.upperId).map (fun o => o.dict) = some du ∧
      (st7.getObj mid).map (fun o => o.dict) =
        some (copyAndPatch f.mergedName f.lowerName
          (((st.getObj mid).map (fun o => o.dict)).getD emptyDict) dl du) := by
  -- object witnesses in the starting state
  obtain ⟨oM, hoM⟩ : ∃ o, st.getObj mid = some o := by
    cases hg : st.getObj mid with
    | none => rw [hg] at hm; cases hm
    | some o => exact ⟨o, rfl⟩
  obtain ⟨oL, hoL⟩ : ∃ o, st.getObj info.lowerId = some o := by
    cases hg : st.getObj info.lowerId with
    | none => rw [hg] at hnameL; cases hnameL
    | some o => exact ⟨o, rfl⟩
  -- lower phase
  obtain ⟨stB, hrunB, qB⟩ := execBody_lower_run lsp.body
    (st.setSysMod f.lowerName (some info.lowerId)) hlb hc hm hnameL d1
  set st3 := stB.setSysMod f.lowerName none with hst3
  have hlow : execLowerPhase env f info st = .ok st3 := by
    unfold execLowerPhase
    dsimp only
    have hsp : ((st.setSysMod f.lowerName (some info.lowerId)).getObj info.lowerId).bind
        (fun o => o.spec) = some lsp := hspecL
    rw [hsp]
    show (match execBody env (some f) info.lowerId lsp.body
        (st.setSysMod f.lowerName (some info.lowerId)) with
      | Except.error e => (Except.error e : Except String St)
      | Except.ok s2 => Except.ok (s2.setSysMod f.lowerName none)) = Except.ok st3
    rw [hrunB]
  -- facts about st3
  have hgetM3 : st3.getObj mid = st.getObj mid :=
    (qB.pres mid d1).trans (getObj_setSysMod st f.lowerName (some info.lowerId) mid)
  have hgetU3 : st3.getObj info.upperId = st.getObj info.upperId :=
    (qB.pres info.upperId d3).trans
      (getObj_setSysMod st f.lowerName (some info.lowerId) info.upperId)
  have hskelL3 : (st3.getObj info.lowerId).map skel =
      (st.getObj info.lowerId).map skel := qB.skelPres
  obtain ⟨oB, hoB⟩ : ∃ o, st3.getObj info.lowerId = some o := by
    cases hg : st3.getObj info.lowerId with
    | none => rw [hg, hoL] at hskelL3; cases hskelL3
    | some o => exact ⟨o, rfl⟩
  -- the copy-lower step
  set st4 := st3.withDict mid
    (fun d => dictUpdate d
      (pubFilter (((st3.getObj info.lowerId).map (fun o => o.dict)).getD emptyDict)))
    with hst4
  have hspecU4 : (st4.getObj info.upperId).bind (fun o => o.spec) = some usp := by
    rw [hst4, getObj_withDict_ne st3 mid _ info.upperId (Ne.symm d2), hgetU3]
    exact hspecU
  have hsys4 : st4.sysMods f.mergedName = some mid := by
    rw [hst4, sysMods_withDict]
    rw [hst3, sysMods_setSysMod, if_neg hne, qB.sys, sysMods_setSysMod, if_neg hne]
    exact hsys
  obtain ⟨oU4, hoU4⟩ : ∃ o, st4.getObj info.upperId = some o := by
    cases hg : st4.getObj info.upperId with
    | none => rw [hg] at hspecU4; cases hspecU4
    | some o => exact ⟨o, rfl⟩
  -- upper execution
  obtain ⟨stU, hrunU, qU⟩ := execBody_upper_run usp.body st4 hub hsys4
  have hafter : execAfterLower env f mid info st3 = .ok (execUpperCopy f info stU mid) := by
    unfold execAfterLower
    dsimp only
    rw [← hst4]
    rw [hspecU4]
    show (match execBody env none info.upperId usp.body st4 with
      | Except.error e => (Except.error e : Except String St)
      | Except.ok s5 => Except.ok (execUpperCopy f info s5 mid)) =
      Except.ok (execUpperCopy f info stU mid)
    rw [hrunU]
  have hexec : execModule env f mid st = .ok (execUpperCopy f info stU mid) := by
    unfold execModule
    rw [hm]
    show (match execLowerPhase env f info st with
      | Except.error e => (Except.error e : Except String St)
      | Except.ok s3 => execAfterLower env f mid info s3) =
      Except.ok (execUpperCopy f info stU mid)
    rw [hlow]
    show execAfterLower env f mid info st3 = Except.ok (execUpperCopy f info stU mid)
    exact hafter
  -- upper witnesses after execution
  obtain ⟨oU, hoU⟩ : ∃ o, stU.getObj info.upperId = some o := by
    cases hg : stU.getObj info.upperId with
    | none =>
      have := qU.skelPres
      rw [hg, hoU4] at this
      cases this
    | some o => exact ⟨o, rfl⟩
  refine ⟨execUpperCopy f info stU mid, oB.dict, oU.dict, hexec, ?_, ?_, ?_, ?_, ?_,
    ?_, ?_, ?_, ?_, ?_, ?_⟩
  · -- cache
    rw [execUpperCopy_cache, qU.cacheEq, hst4, cache_withDict, hst3, cache_setSysMod,
      qB.cacheEq, cache_setSysMod]
  · -- heap length
    rw [execUpperCopy_len, qU.len, hst4, heapLen_withDict, hst3, heap_setSysMod, qB.len,
      heap_setSysMod]
  · -- sysMods away from the lower name
    intro n hn
    rw [execUpperCopy_sysMods, qU.sys, hst4, sysMods_withDict, hst3, sysMods_setSysMod,
      if_neg hn, qB.sys, sysMods_setSysMod, if_neg hn]
  · -- the lower name is deleted
    rw [execUpperCopy_sysMods, qU.sys, hst4, sysMods_withDict, hst3, sysMods_setSysMod,
      if_pos rfl]
  · -- untouched modules
    intro i h1 h2 h3
    rw [execUpperCopy_getObj_ne f info stU mid i h1, qU.pres i h3, hst4,
      getObj_withDict_ne st3 mid _ i h1, hst3, getObj_setSysMod, qB.pres i h2,
      getObj_setSysMod]
  · -- merged module skeleton
    rw [execUpperCopy_skel f info stU mid mid, congrArg (Option.map skel) (qU.pres mid d2),
      hst4, skel_withDict, hgetM3]
  · -- lower copy skeleton
    rw [execUpperCopy_getObj_ne f info stU mid info.lowerId (Ne.symm d1),
      qU.pres info.lowerId (Ne.symm d3), hst4,
      getObj_withDict_ne st3 mid _ info.lowerId (Ne.symm d1)]
    exact hskelL3
  · -- upper copy skeleton
    rw [execUpperCopy_getObj_ne f info stU mid info.upperId (Ne.symm d2)]
    rw [qU.skelPres, hst4, skel_withDict, hgetU3]
  · -- the lower dict
    rw [execUpperCopy_getObj_ne f info stU mid info.lowerId (Ne.symm d1),
      qU.pres info.lowerId (Ne.symm d3), hst4,
      getObj_withDict_ne st3 mid _ info.lowerId (Ne.symm d1), hoB]
    rfl
  · -- the upper dict
    rw [execUpperCopy_getObj_ne f info stU mid info.upperId (Ne.symm d2), hoU]
    rfl
  · -- the merged dict is the copy-and-patch of the two layer dicts
    have hU4 : st4.getObj mid = some { oM with dict := (dictUpdate oM.dict
        (pubFilter oB.dict)) } := by
      rw [hst4, getObj_withDict_self, hgetM3, hoM, hoB]
      rfl
    have hUm : stU.getObj mid = some { oM with dict := (dictUpdate oM.dict
        (pubFilter oB.dict)) } := by
      rw [qU.pres mid d2]
      exact hU4
    rw [execUpperCopy_getObj_self, hUm, hoU, hoM]
    rfl


/-- `shim`'s construction path succeeds for a self-mount (mount name =
override root): both `exec_module` rounds terminate, the result is the
fresh `MergedModule`, and its final dict is the copy-and-patch merge of
the freshly executed layer dicts. -/
theorem shimBuild_selfmount {env : Env} {st : St} {A O : String} {lsp usp : ModSpec}
    (hne : O ≠ A)
    (hA : env.spec A = some lsp) (hO : env.spec O = some usp)
    (hlb : ∀ s ∈ lsp.body, LowerStmtOk ⟨O, O, A⟩ s)
    (hub : ∀ s ∈ usp.body, UpperStmtOk ⟨O, O, A⟩ s)
    (hsm : st.sysMods O = none) :
    ∃ st2 dl du,
      shimBuild env ⟨O, O, A⟩ st = .ok (st.heap.length + 2, st2) ∧
      ((st2.getObj (st.heap.length + 2)).bind (fun o => o.merged) =
        some ⟨st.heap.length + 1, st.heap.length, (O, A, O)⟩) ∧
      (st2.getObj st.heap.length).map (fun o => o.dict) = some dl ∧
      (st2.getObj (st.heap.length + 1)).map (fun o => o.dict) = some du ∧
      (∃ d0, (st2.getObj (st.heap.length + 2)).map (fun o => o.dict) =
        some (copyAndPatch O A d0 dl du)) := by
  set f : FinderCfg := ⟨O, O, A⟩ with hf
  set stC : St := { st with cache := fun _ => none } with hstC
  have hcc : stC.cache f.key = none := rfl
  have hA2 : env.spec f.lowerName = some lsp := hA
  have hcreate : createModule env f stC =
      .ok (stC.heap.length + 2, builtState env f stC lsp) := by
    unfold createModule
    rw [hcc]
    show (match env.spec f.lowerName with
      | none => (Except.error ("No module named " ++ f.lowerName) :
          Except String (Nat × St))
      | some lspec => Except.ok (stC.heap.length + 2, builtState env f stC lspec)) =
      Except.ok (stC.heap.length + 2, builtState env f stC lsp)
    rw [hA2]
  set s4 := (builtState env f stC lsp).setSysMod f.mergedName
    (some (stC.heap.length + 2)) with hs4
  have hm4 : (s4.getObj (stC.heap.length + 2)).bind (fun o => o.merged) =
      some ⟨stC.heap.length + 1, stC.heap.length, f.key⟩ := by
    rw [hs4, getObj_setSysMod, builtState_getObj_merged]
    rfl
  have hc4 : s4.cache f.key = some (stC.heap.length + 2) := by
    rw [hs4, cache_setSysMod, builtState_cache_key]
  have hsys4 : s4.sysMods f.mergedName = some (stC.heap.length + 2) := by
    rw [hs4, sysMods_setSysMod, if_pos rfl]
  have hnameL4 : (s4.getObj stC.heap.length).map (fun o => o.name) =
      some f.lowerName := by
    rw [hs4, getObj_setSysMod, builtState_getObj_lower]
    rfl
  have hspecL4 : (s4.getObj stC.heap.length).bind (fun o => o.spec) = some lsp := by
    rw [hs4, getObj_setSysMod, builtState_getObj_lower]
    rfl
  have hspecU4 : (s4.getObj (stC.heap.length + 1)).bind (fun o => o.spec) =
      some usp := by
    rw [hs4, getObj_setSysMod, builtState_getObj_upper, upperModuleObj_eq]
    show env.spec f.upperName = some usp
    exact hO
  obtain ⟨st7, dl1, du1, hexec7, hcache7, hlen7, hsysne7, hsysA7, hpres7, hskelM7,
      hskelL7, hskelU7, hdl7, hdu7, hdict7⟩ :=
    execModule_selfmount hm4 hc4 hsys4 hnameL4 hspecL4 hspecU4 hlb hub hne
      (show stC.heap.length + 2 ≠ stC.heap.length from by omega)
      (show stC.heap.length + 2 ≠ stC.heap.length + 1 from by omega)
      (show stC.heap.length + 1 ≠ stC.heap.length from by omega)
  have hbo1 : buildOnce env f stC = .ok (stC.heap.length + 2, st7) := by
    unfold buildOnce
    rw [hcreate]
    show (match execModule env f (stC.heap.length + 2) s4 with
      | Except.error e => (Except.error e : Except String (Nat × St))
      | Except.ok s2 => Except.ok (stC.heap.length + 2, s2)) =
      Except.ok (stC.heap.length + 2, st7)
    rw [hexec7]
  -- second round: cache hit, re-execution
  have hc7 : st7.cache f.key = some (stC.heap.length + 2) := by
    rw [hcache7]
    exact hc4
  have hcreate2 : createModule env f st7 = .ok (stC.heap.length + 2, st7) := by
    unfold createModule
    rw [hc7]
  set s4b := st7.setSysMod f.mergedName (some (stC.heap.length + 2)) with hs4b
  have hm4b : (s4b.getObj (stC.heap.length + 2)).bind (fun o => o.merged) =
      some ⟨stC.heap.length + 1, stC.heap.length, f.key⟩ := by
    rw [hs4b, getObj_setSysMod, merged_of_skel hskelM7]
    exact hm4
  have hc4b : s4b.cache f.key = some (stC.heap.length + 2) := by
    rw [hs4b, cache_setSysMod]
    exact hc7
  have hsys4b : s4b.sysMods f.mergedName = some (stC.heap.length + 2) := by
    rw [hs4b, sysMods_setSysMod, if_pos rfl]
  have hnameL4b : (s4b.getObj stC.heap.length).map (fun o => o.name) =
      some f.lowerName := by
    rw [hs4b, getObj_setSysMod, name_of_skel hskelL7]
    exact hnameL4
  have hspecL4b : (s4b.getObj stC.heap.length).bind (fun o => o.spec) = some lsp := by
    rw [hs4b, getObj_setSysMod, spec_of_skel hskelL7]
    exact hspecL4
  have hspecU4b : (s4b.getObj (stC.heap.length + 1)).bind (fun o => o.spec) =
      some usp := by
    rw [hs4b, getObj_setSysMod, spec_of_skel hskelU7]
    exact hspecU4
  obtain ⟨st7b, dl, du, hexec7b, hcache7b, hlen7b, hsysne7b, hsysA7b, hpres7b,
      hskelM7b, hskelL7b, hskelU7b, hdl7b, hdu7b, hdict7b⟩ :=
    execModule_selfmount hm4b hc4b hsys4b hnameL4b hspecL4b hspecU4b hlb hub hne
      (show stC.heap.length + 2 ≠ stC.heap.length from by omega)
      (show stC.heap.length + 2 ≠ stC.heap.length + 1 from by omega)
      (show stC.heap.length + 1 ≠ stC.heap.length from by omega)
  have hbo2 : buildOnce env f st7 = .ok (stC.heap.length + 2, st7b) := by
    unfold buildOnce
    rw [hcreate2]
    show (match execModule env f (stC.heap.length + 2) s4b with
      | Except.error e => (Except.error e : Except String (Nat × St))
      | Except.ok s2 => Except.ok (stC.heap.length + 2, s2)) =
      Except.ok (stC.heap.length + 2, st7b)
    rw [hexec7b]
  refine ⟨st7b, dl, du, ?_, ?_, hdl7b, hdu7b,
    ⟨((s4b.getObj (stC.heap.length + 2)).map (fun o => o.dict)).getD emptyDict,
      hdict7b⟩⟩
  · unfold shimBuild
    dsimp only
    rw [← hstC]
    rw [show stC.sysMods f.mergedName = none from hsm]
    show (match buildOnce env f stC with
      | Except.error e => (Except.error e : Except String (Nat × St))
      | Except.ok (_, s2) => buildOnce env f s2) =
      Except.ok (st.heap.length + 2, st7b)
    rw [hbo1]
    exact hbo2
  · rw [merged_of_skel hskelM7b]
    exact hm4b


/-! # Claim theorems -/

/-- C1, counterexample.  The claim — for every symbol name present in
both layers the merged table maps it to the override value, never the
base value — fails on the code at two concrete inputs: a name whose
override value carries `__module__` equal to the base name is re-bound by
the patch loop to a fresh globals-patched function, not the override
value; and a double-underscore name present in both layers is not mapped
at all. -/
theorem C1_counterexample :
    ((fun k => if k = "f" then some (PyVal.func 0 "base") else none : Dict) "f" =
      some (PyVal.func 0 "base")) ∧
    ((fun k => if k = "f" then some (PyVal.func 1 "base") else none : Dict) "f" =
      some (PyVal.func 1 "base")) ∧
    copyAndPatch "mount" "base" emptyDict
      (fun k => if k = "f" then some (PyVal.func 0 "base") else none)
      (fun k => if k = "f" then some (PyVal.func 1 "base") else none) "f" ≠
      some (PyVal.func 1 "base") ∧
    copyAndPatch "mount" "base" emptyDict
      (fun k => if k = "__version__" then some (PyVal.obj 0 none) else none)
      (fun k => if k = "__version__" then some (PyVal.obj 1 none) else none)
      "__version__" = none := by
  refine ⟨rfl, rfl, by decide, by decide⟩

/-- C1 (amended): for every name present in both layers that does not
begin with a double underscore, once resolution completes the merged
table maps it to the override layer's value — replaced by its
globals-patched copy exactly when the override value's `__module__`
equals the base module name — and, whenever the override value differs
from the base value and is not patched, never to the base layer's
value. -/
theorem C1_precedence (mergedN lowerN : String) (d0 lowerDict upperDict : Dict)
    (k : String) (vl vu : PyVal)
    (_hl : lowerDict k = some vl) (hu : upperDict k = some vu)
    (hpub : pyStartsWith k "__" = false) :
    copyAndPatch mergedN lowerN d0 lowerDict upperDict k =
      some (if vu.tagOf = some lowerN then patchGlobals vu mergedN else vu) ∧
    (vu ≠ vl → vu.tagOf ≠ some lowerN →
      copyAndPatch mergedN lowerN d0 lowerDict upperDict k ≠ some vl) := by
  have h1 := copyAndPatch_lookup_upper mergedN lowerN d0 lowerDict upperDict k vu hpub hu
  constructor
  · exact h1
  · intro hne htag
    rw [h1]
    intro hcon
    have h2 := Option.some.inj hcon
    rw [patchEntry_untagged _ _ _ htag] at h2
    exact hne h2

theorem C1_precedence_witness :
    ((fun k => if k = "g" then some (PyVal.func 0 "base") else none : Dict) "g" =
      some (PyVal.func 0 "base")) ∧
    ((fun k => if k = "g" then some (PyVal.func 1 "over") else none : Dict) "g" =
      some (PyVal.func 1 "over")) ∧
    (pyStartsWith "g" "__" = false) ∧
    (copyAndPatch "mount" "base" emptyDict
        (fun k => if k = "g" then some (PyVal.func 0 "base") else none)
        (fun k => if k = "g" then some (PyVal.func 1 "over") else none) "g" =
      some (if (PyVal.func 1 "over").tagOf = some "base"
        then patchGlobals (PyVal.func 1 "over") "mount" else PyVal.func 1 "over") ∧
      (PyVal.func 1 "over" ≠ PyVal.func 0 "base" →
        (PyVal.func 1 "over").tagOf ≠ some "base" →
        copyAndPatch "mount" "base" emptyDict
          (fun k => if k = "g" then some (PyVal.func 0 "base") else none)
          (fun k => if k = "g" then some (PyVal.func 1 "over") else none) "g" ≠
          some (PyVal.func 0 "base"))) :=
  ⟨rfl, rfl, by decide,
    C1_precedence "mount" "base" emptyDict _ _ "g" (PyVal.func 0 "base")
      (PyVal.func 1 "over") rfl rfl (by decide)⟩

/-- C2: executed behavior of `MergedModule.__getattr__` at the failing
input.  A name defined only in the upper layer raises `AttributeError`
(the upper lookup's result is dead code: it is overwritten by the lower
lookup, whose miss is re-raised), and a name defined in both layers
returns the lower layer's value — contradicting the claim and the
method's own docstring. -/
theorem C2_fallback_behavior :
    mergedGetattr (fun _ => none) "m"
      (fun k => if k = "x" then some (PyVal.obj 9 none) else none)
      (fun _ => none) "x" = .error () ∧
    mergedGetattr (fun _ => none) "m"
      (fun k => if k = "y" then some (PyVal.obj 1 none) else none)
      (fun k => if k = "y" then some (PyVal.obj 2 none) else none) "y" =
      .ok (PyVal.obj 2 none) := ⟨rfl, rfl⟩

/-- C3, counterexample.  With the base layer absent and the override
present, `create_module` raises `ImportError` instead of proceeding with
an empty base symbol table: the claim has the lenient and the strict
layer swapped. -/
theorem C3_counterexample :
    (Env.spec ⟨fun n => if n = "o" then some ⟨[]⟩ else none, fun _ => none⟩ "a" =
      none) ∧
    (Env.spec ⟨fun n => if n = "o" then some ⟨[]⟩ else none, fun _ => none⟩ "o" ≠
      none) ∧
    createModule ⟨fun n => if n = "o" then some ⟨[]⟩ else none, fun _ => none⟩
      ⟨"m", "o", "a"⟩ ⟨[], fun _ => none, fun _ => none⟩ =
      .error ("No module named " ++ "a") :=
  ⟨rfl, fun h => Option.noConfusion h, rfl⟩

/-- C3 (amended): on a cache miss, resolution fails precisely when the
base (lower) layer cannot be located — regardless of the override — with
`ImportError` naming the base; a missing override is tolerated:
`create_module` proceeds, building a bare spec-less module for the upper
layer. -/
theorem C3_missing_layers (env : Env) (f : FinderCfg) (st : St)
    (hc : st.cache f.key = none) :
    (env.spec f.lowerName = none →
      createModule env f st = .error ("No module named " ++ f.lowerName)) ∧
    (∀ lsp, env.spec f.lowerName = some lsp → env.spec f.upperName = none →
      createModule env f st = .ok (st.heap.length + 2, builtState env f st lsp) ∧
      (builtState env f st lsp).getObj (st.heap.length + 1) =
        some { name := f.upperName, spec := none, dict := emptyDict,
               merged := none }) := by
  constructor
  · intro hl
    unfold createModule
    rw [hc]
    show (match env.spec f.lowerName with
      | none => (Except.error ("No module named " ++ f.lowerName) :
          Except String (Nat × St))
      | some lspec => Except.ok (st.heap.length + 2, builtState env f st lspec)) =
      Except.error ("No module named " ++ f.lowerName)
    rw [hl]
  · intro lsp hl hu
    constructor
    · unfold createModule
      rw [hc]
      show (match env.spec f.lowerName with
        | none => (Except.error ("No module named " ++ f.lowerName) :
            Except String (Nat × St))
        | some lspec => Except.ok (st.heap.length + 2, builtState env f st lspec)) =
        Except.ok (st.heap.length + 2, builtState env f st lsp)
      rw [hl]
    · rw [builtState_getObj_upper, upperModuleObj_eq, hu]

theorem C3_missing_layers_witness :
    ((⟨[], fun _ => none, fun _ => none⟩ : St).cache
      (FinderCfg.key ⟨"m", "o", "a"⟩) = none) ∧
    (Env.spec ⟨fun n => if n = "a" then some ⟨[]⟩ else none, fun _ => none⟩ "a" =
      some ⟨[]⟩) ∧
    (Env.spec ⟨fun n => if n = "a" then some ⟨[]⟩ else none, fun _ => none⟩ "o" =
      none) ∧
    (createModule ⟨fun n => if n = "a" then some ⟨[]⟩ else none, fun _ => none⟩
        ⟨"m", "o", "a"⟩ ⟨[], fun _ => none, fun _ => none⟩ =
      .ok ((⟨[], fun _ => none, fun _ => none⟩ : St).heap.length + 2,
        builtState ⟨fun n => if n = "a" then some ⟨[]⟩ else none, fun _ => none⟩
          ⟨"m", "o", "a"⟩ ⟨[], fun _ => none, fun _ => none⟩ ⟨[]⟩) ∧
      (builtState ⟨fun n => if n = "a" then some ⟨[]⟩ else none, fun _ => none⟩
          ⟨"m", "o", "a"⟩ ⟨[], fun _ => none, fun _ => none⟩ ⟨[]⟩).getObj
          ((⟨[], fun _ => none, fun _ => none⟩ : St).heap.length + 1) =
        some { name := "o", spec := none, dict := emptyDict, merged := none }) :=
  ⟨rfl, rfl, rfl,
    (C3_missing_layers ⟨fun n => if n = "a" then some ⟨[]⟩ else none, fun _ => none⟩
      ⟨"m", "o", "a"⟩ ⟨[], fun _ => none, fun _ => none⟩ rfl).2 ⟨[]⟩ rfl rfl⟩

/-- C7, counterexample.  The copy step of `exec_module` excludes only
names starting with a double underscore: a single-underscore name —
conventionally private in Python (PEP 8) — IS copied across layers into
the merged table, refuting the claim as stated. -/
theorem C7_counterexample :
    isConventionPrivate "_secret" = true ∧
    copyStep emptyDict
      (fun k => if k = "_secret" then some (PyVal.obj 3 none) else none)
      emptyDict "_secret" = some (PyVal.obj 3 none) := by
  refine ⟨by decide, by decide⟩

/-- C7 (amended): the copy step never places a name beginning with two
underscores (the pre-copy entry survives unchanged), while a name
beginning with a single underscore is copied across layers exactly like a
public name. -/
theorem C7_copy_policy (d0 lowerDict upperDict : Dict) (k : String) (v : PyVal) :
    (pyStartsWith k "__" = true → copyStep d0 lowerDict upperDict k = d0 k) ∧
    (pyStartsWith k "__" = false → upperDict k = none → lowerDict k = some v →
      copyStep d0 lowerDict upperDict k = some v) := by
  constructor
  · intro hd
    rw [copyStep_lookup, if_pos hd]
  · intro hp hu hl
    rw [copyStep_lookup, if_neg (by simp [hp]), hu, hl]
    rfl

theorem C7_copy_policy_witness :
    (pyStartsWith "__all__" "__" = true ∧
      copyStep emptyDict
        (fun k => if k = "__all__" then some (PyVal.obj 0 none) else none)
        emptyDict "__all__" = emptyDict "__all__") ∧
    (pyStartsWith "_secret2" "__" = false ∧
      (fun k => if k = "_secret2" then some (PyVal.obj 4 none) else none : Dict)
        "_secret2" = some (PyVal.obj 4 none) ∧
      copyStep emptyDict
        (fun k => if k = "_secret2" then some (PyVal.obj 4 none) else none)
        emptyDict "_secret2" = some (PyVal.obj 4 none)) :=
  ⟨⟨by decide,
      (C7_copy_policy emptyDict _ emptyDict "__all__" (PyVal.obj 0 none)).1 (by decide)⟩,
    ⟨by decide, rfl,
      (C7_copy_policy emptyDict _ emptyDict "_secret2" (PyVal.obj 4 none)).2
        (by decide) rfl rfl⟩⟩

/-- C9: the import rewrite of `_do_import` fires only when the imported
name equals the base root exactly or is a strict dotted descendant of it;
a name merely sharing the base root as a string prefix is never
rewritten; an exact match becomes the mount root; and a dotted descendant
has exactly its leading root segment re-rooted, once, with the remainder
unchanged. -/
theorem C9_rewrite (lowerN mergedN name rest : String) (fromLayer : Bool) :
    (nameMatchesRoot lowerN name = false →
      redirectName fromLayer lowerN mergedN name = name) ∧
    (redirectName true lowerN mergedN lowerN = mergedN) ∧
    (name = lowerN ++ "." ++ rest →
      redirectName true lowerN mergedN name = mergedN ++ "." ++ rest) := by
  refine ⟨?_, ?_, ?_⟩
  · intro hm
    unfold redirectName
    rw [hm, Bool.and_false, if_neg (by simp)]
  · unfold redirectName
    have hm : nameMatchesRoot lowerN lowerN = true := by
      unfold nameMatchesRoot
      simp
    rw [hm, if_pos (by simp), pyReplace1_self]
  · intro hn
    subst hn
    unfold redirectName
    have hm : nameMatchesRoot lowerN (lowerN ++ "." ++ rest) = true := by
      unfold nameMatchesRoot
      rw [pyStartsWith_self_append (lowerN ++ ".") rest]
      simp
    rw [hm, if_pos (by simp), pyReplace1_descendant]

theorem C9_rewrite_witness :
    (nameMatchesRoot "json" "json2.x" = false ∧
      redirectName true "json" "mount" "json2.x" = "json2.x") ∧
    redirectName true "json" "mount" "json" = "mount" ∧
    ("json.sub.deep" = "json" ++ "." ++ "sub.deep" ∧
      redirectName true "json" "mount" "json.sub.deep" = "mount" ++ "." ++ "sub.deep") :=
  ⟨⟨by decide, (C9_rewrite "json" "mount" "json2.x" "sub.deep" true).1 (by decide)⟩,
    (C9_rewrite "json" "mount" "json2.x" "sub.deep" true).2.1,
    ⟨by decide, (C9_rewrite "json" "mount" "json.sub.deep" "sub.deep" true).2.2
      (by decide)⟩⟩


/-- C8, counterexample.  An empty mount handle does not raise: `shim`
with an explicitly empty mount succeeds, silently defaulting the mount to
the override name; and an unspecified override with a resolvable caller
package does not raise either — both contradict "raises ValueError
whenever any of the three handles is empty or unspecified". -/
theorem C8_counterexample :
    shimValidate "base" (some "over") (some "") "pkg" "nm" = .ok "over" ∧
    shimValidate "base" none (some "m") "pkg" "nm" = .ok "m" := ⟨rfl, rfl⟩

/-- C8 (amended): `shim`'s validation raises `ValueError` iff the lower
name is empty, the upper name is explicitly empty, or the upper name is
unspecified and underivable from the caller's frame (empty package and a
module name that is `__main__` or empty); the mount handle is never
validated — empty or unspecified, it defaults to the upper name. -/
theorem C8_validation (lower u : String) (mount : Option String) (pkg nm : String) :
    ((shimValidate lower none mount pkg nm).isOk = false ↔
      lower = "" ∨ (pkg = "" ∧ (nm = "__main__" ∨ nm = ""))) ∧
    ((shimValidate lower (some u) mount pkg nm).isOk = false ↔
      lower = "" ∨ u = "") ∧
    (lower ≠ "" → u ≠ "" →
      shimValidate lower (some u) (some "") pkg nm = .ok u ∧
      shimValidate lower (some u) none pkg nm = .ok u) := by
  unfold shimValidate
  refine ⟨?_, ?_, ?_⟩
  · by_cases hl : lower = ""
    · simp [hl, Except.isOk, Except.toBool]
    · by_cases hp : pkg = ""
      · by_cases hm2 : nm = "__main__"
        · simp [hl, hp, hm2, Except.isOk, Except.toBool]
        · by_cases hn : nm = ""
          · simp [hl, hp, hm2, hn, Except.isOk, Except.toBool]
          · cases mount <;> simp [hl, hp, hm2, hn, Except.isOk, Except.toBool]
      · cases mount <;> simp [hl, hp, Except.isOk, Except.toBool]
  · by_cases hl : lower = ""
    · simp [hl, Except.isOk, Except.toBool]
    · by_cases hu : u = "" <;> cases mount <;>
        simp [hl, hu, Except.isOk, Except.toBool]
  · intro hl hu
    constructor <;> simp [hl, hu]


theorem C8_validation_witness :
    ("base" : String) ≠ "" ∧ ("over" : String) ≠ "" ∧
    (shimValidate "base" (some "over") (some "") "p" "n" = .ok "over" ∧
      shimValidate "base" (some "over") none "p" "n" = .ok "over") :=
  ⟨by decide, by decide,
    (C8_validation "base" "over" (some "") "p" "n").2.2 (by decide) (by decide)⟩

/-- The state for the C4 counterexample: mount name "m" bound in
`sys.modules` to a `MergedModule` recorded as built from base "a" and
override "b". -/
def c4State : St :=
  ⟨[{ name := "m", spec := none, dict := emptyDict,
      merged := some ⟨1, 2, ("b", "a", "m")⟩ }],
    fun n => if n = "m" then some 0 else none, fun _ => none⟩

/-- C4, counterexample.  With mount "m" bound to a merged module built
from the pair (base "a", override "b"), a `shim` call requesting the same
mount with the different pair (base "c", override "d") returns the
previously cached instance with the state unchanged: no distinct instance
is created or cached, refuting the claim's second half. -/
theorem C4_counterexample :
    shimModel ⟨fun _ => none, fun _ => none⟩ "c" "d" "m" c4State = .ok (0, c4State) ∧
    ((c4State.getObj 0).bind (fun o => o.merged)).map (fun i => i.triple) =
      some ("b", "a", "m") ∧
    (("b", "a", "m") : String × String × String) ≠ ("d", "c", "m") :=
  ⟨rfl, rfl, by decide⟩

/-- C4 (amended): `create_module` is idempotent per cached key; `shim`
returns the `sys.modules`-bound merged module for a mount name regardless
of the requested base/override pair (so a different pair does NOT create
a distinct instance while the mount stays bound); and a second `shim`
with the identical triple — when the mount name differs from the base
name — returns the reference-identical module with the state
unchanged. -/
theorem C4_caching (env : Env) (lower upper mount lower2 upper2 : String)
    (st st2 : St) (r i : Nat) :
    (st.cache (upper, lower, mount) = some i →
      createModule env ⟨mount, upper, lower⟩ st = .ok (i, st)) ∧
    (st.sysMods mount = some i →
      ((st.getObj i).bind (fun o => o.merged)).isSome = true →
      shimModel env lower2 upper2 mount st = .ok (i, st)) ∧
    (st.sysMods mount = none → mount ≠ lower →
      shimModel env lower upper mount st = .ok (r, st2) →
      shimModel env lower upper mount st2 = .ok (r, st2)) := by
  refine ⟨?_, ?_, ?_⟩
  · intro hc
    have hc2 : st.cache (FinderCfg.key ⟨mount, upper, lower⟩) = some i := hc
    unfold createModule
    rw [hc2]
  · intro hsm hmg
    unfold shimModel
    rw [hsm]
    show (if ((st.getObj i).bind (fun o => o.merged)).isSome = true
      then Except.ok (i, st)
      else shimBuild env ⟨mount, upper2, lower2⟩ st) = Except.ok (i, st)
    rw [if_pos hmg]
  · intro hsm hne hrun
    have hbuild : shimBuild env ⟨mount, upper, lower⟩ st = .ok (r, st2) := by
      unfold shimModel at hrun
      rw [hsm] at hrun
      exact hrun
    obtain ⟨h1, h2, h3, h4⟩ := shimBuild_ok hbuild
    have hsm2 : st2.sysMods mount = some r := h4 hne
    have hmg : ((st2.getObj r).bind (fun o => o.merged)).isSome = true := by
      cases hg : st2.getObj r with
      | none => rw [hg] at h3; cases h3
      | some o =>
        rw [hg] at h3
        have h5 : some (skel o) = some (mount, (none : Option ModSpec),
            some (⟨st.heap.length + 1, st.heap.length,
              (upper, lower, mount)⟩ : MergedInfo)) := h3
        have hsk := Option.some.inj h5
        have hmo : o.merged = some ⟨st.heap.length + 1, st.heap.length,
            (upper, lower, mount)⟩ := congrArg (fun p => p.2.2) hsk
        show (o.merged).isSome = true
        rw [hmo]
        rfl
    unfold shimModel
    rw [hsm2]
    show (if ((st2.getObj r).bind (fun o => o.merged)).isSome = true
      then Except.ok (r, st2)
      else shimBuild env ⟨mount, upper, lower⟩ st2) = Except.ok (r, st2)
    rw [if_pos hmg]

def c4env : Env :=
  ⟨fun n => if n = "a" then some ⟨[]⟩ else if n = "b" then some ⟨[]⟩ else none,
    fun _ => none⟩

def c4st0 : St := ⟨[], fun _ => none, fun _ => none⟩

def c4res : Nat × St :=
  match shimModel c4env "a" "b" "m" c4st0 with
  | .ok p => p
  | .error _ => (0, c4st0)

theorem C4_caching_witness :
    c4st0.sysMods "m" = none ∧ ("m" : String) ≠ "a" ∧
    shimModel c4env "a" "b" "m" c4st0 = .ok (c4res.1, c4res.2) ∧
    shimModel c4env "a" "b" "m" c4res.2 = .ok (c4res.1, c4res.2) :=
  ⟨rfl, by decide, rfl,
    (C4_caching c4env "a" "b" "m" "a" "b" c4st0 c4res.2 c4res.1 0).2.2 rfl
      (by decide) rfl⟩

/-- C6: isolation — resolving a mount never adds, removes or changes any
symbol of a pre-existing module object: every heap entry present before
`shim` runs (in particular the originally imported base and override
modules, with all their attribute values, so calling the original base's
functions still runs the un-overridden code) is identical afterwards. -/
theorem C6_isolation (env : Env) (lower upper mount : String) (st st2 : St) (r : Nat)
    (h : shimModel env lower upper mount st = .ok (r, st2)) :
    ∀ i, i < st.heap.length → st2.getObj i = st.getObj i := by
  unfold shimModel at h
  split at h
  · split at h
    · cases h
      intro i _
      rfl
    · exact (shimBuild_ok h).2.1
  · exact (shimBuild_ok h).2.1

def c6st : St :=
  ⟨[{ name := "a", spec := none,
      dict := fun k => if k = "f" then some (PyVal.func 7 "a") else none,
      merged := none }],
    fun n => if n = "a" then some 0 else none, fun _ => none⟩

def c6env : Env :=
  ⟨fun n => if n = "a" then some ⟨[Stmt.assign "f" (PyVal.func 8 "a")]⟩
    else if n = "b" then some ⟨[]⟩ else none,
    fun _ => none⟩

def c6res : Nat × St :=
  match shimModel c6env "a" "b" "m" c6st with
  | .ok p => p
  | .error _ => (0, c6st)

theorem C6_isolation_witness :
    shimModel c6env "a" "b" "m" c6st = .ok (c6res.1, c6res.2) ∧
    0 < c6st.heap.length ∧
    c6res.2.getObj 0 = c6st.getObj 0 :=
  ⟨rfl, by decide,
    C6_isolation c6env "a" "b" "m" c6st c6res.2 c6res.1 rfl 0 (by decide)⟩

/-- C10: the lower phase of `exec_module` installs the fresh base copy
under the base name in `sys.modules` and unconditionally deletes that
entry once base execution finishes; consequently, after `exec_module`
completes, the base name is no longer bound to any module object that
existed in the registry before — the entry is gone, or holds a module
freshly created during execution. -/
theorem C10_lower_unbound (env : Env) (f : FinderCfg) (info : MergedInfo)
    (mid oldId : Nat) (st stL st2 : St) :
    (execLowerPhase env f info st = .ok stL → stL.sysMods f.lowerName = none) ∧
    (execModule env f mid st = .ok st2 → st.sysMods f.lowerName = some oldId →
      oldId < st.heap.length → st2.sysMods f.lowerName ≠ some oldId) := by
  constructor
  · intro h
    exact (execLowerPhase_ok h).1
  · intro h hold hlt
    obtain ⟨info2, hinfo, hlen, hcache, hskel, hpres, hkeep, hlow, hfresh⟩ :=
      execModule_ok h
    rcases hlow with hnone | ⟨j, hj, hje⟩
    · rw [hnone]
      intro hcon
      cases hcon
    · rw [hj]
      intro hcon
      have h6 : j = oldId := Option.some.inj hcon
      omega

def c10spec : ModSpec := ⟨[Stmt.assign "f" (PyVal.func 8 "a")]⟩

def c10st : St :=
  ⟨[{ name := "a", spec := none,
      dict := fun k => if k = "f" then some (PyVal.func 7 "a") else none,
      merged := none },
    { name := "a", spec := some c10spec, dict := emptyDict, merged := none },
    { name := "b", spec := some ⟨[]⟩, dict := emptyDict, merged := none },
    { name := "m", spec := none, dict := emptyDict,
      merged := some ⟨2, 1, ("b", "a", "m")⟩ }],
    fun n => if n = "a" then some 0 else if n = "m" then some 3 else none,
    fun k => if k = ("b", "a", "m") then some 3 else none⟩

def c10env : Env := ⟨fun _ => none, fun _ => none⟩

def c10cfg : FinderCfg := ⟨"m", "b", "a"⟩

def c10res : St :=
  match execModule c10env c10cfg 3 c10st with
  | .ok s => s
  | .error _ => c10st

def c10lres : St :=
  match execLowerPhase c10env c10cfg ⟨2, 1, ("b", "a", "m")⟩ c10st with
  | .ok s => s
  | .error _ => c10st

theorem C10_lower_unbound_witness :
    (execLowerPhase c10env c10cfg ⟨2, 1, ("b", "a", "m")⟩ c10st = .ok c10lres ∧
      c10lres.sysMods "a" = none) ∧
    (execModule c10env c10cfg 3 c10st = .ok c10res ∧
      c10st.sysMods "a" = some 0 ∧ 0 < c10st.heap.length ∧
      c10res.sysMods "a" ≠ some 0) :=
  ⟨⟨rfl,
      (C10_lower_unbound c10env c10cfg ⟨2, 1, ("b", "a", "m")⟩ 3 0 c10st c10lres
        c10res).1 rfl⟩,
    ⟨rfl, rfl, by decide,
      (C10_lower_unbound c10env c10cfg ⟨2, 1, ("b", "a", "m")⟩ 3 0 c10st c10lres
        c10res).2 rfl rfl (by decide)⟩⟩

/-- C5: self-mount stability.  (i) During binding, an import naming the
mount point itself is answered with the cached merged module's `_lower`
working copy — the independently bound base copy — leaving the state
untouched.  (ii) For a self-mount (mount name = override root O over base
A), `shim`'s construction path terminates successfully; the returned
module is the freshly built merged module, whose `_lower` working copy is
a different, lower heap id (never the object returned); and the returned
module's final symbol table is the copy-and-patch merge in which override
symbols shadow base symbols. -/
theorem C5_selfmount (env : Env) (f : FinderCfg) (caller : String) (stArb : St)
    (mid : Nat) (info : MergedInfo) (st : St) (A O : String) (lsp usp : ModSpec) :
    (nameMatchesRoot f.lowerName f.mergedName = false →
      stArb.cache f.key = some mid →
      (stArb.getObj mid).bind (fun o => o.merged) = some info →
      doImport env f caller f.mergedName stArb = .ok (info.lowerId, stArb)) ∧
    (O ≠ A → env.spec A = some lsp → env.spec O = some usp →
      (∀ s ∈ lsp.body, LowerStmtOk ⟨O, O, A⟩ s) →
      (∀ s ∈ usp.body, UpperStmtOk ⟨O, O, A⟩ s) →
      st.sysMods O = none →
      ∃ st2 dl du,
        shimModel env A O O st = .ok (st.heap.length + 2, st2) ∧
        ((st2.getObj (st.heap.length + 2)).bind (fun o => o.merged) =
          some ⟨st.heap.length + 1, st.heap.length, (O, A, O)⟩) ∧
        st.heap.length ≠ st.heap.length + 2 ∧
        (st2.getObj st.heap.length).map (fun o => o.dict) = some dl ∧
        (st2.getObj (st.heap.length + 1)).map (fun o => o.dict) = some du ∧
        (∃ d0, (st2.getObj (st.heap.length + 2)).map (fun o => o.dict) =
          some (copyAndPatch O A d0 dl du) ∧
          (∀ k vu, pyStartsWith k "__" = false → du k = some vu →
            copyAndPatch O A d0 dl du k = some (patchEntry O A vu)) ∧
          (∀ k vl, pyStartsWith k "__" = false → du k = none → dl k = some vl →
            copyAndPatch O A d0 dl du k = some (patchEntry O A vl)))) := by
  constructor
  · intro hroot hc hm
    exact doImport_mountName hroot hc hm
  · intro hne hA hO hlb hub hsm
    obtain ⟨st2, dl, du, hrun, hmerged, hdl, hdu, d0, hdict⟩ :=
      shimBuild_selfmount hne hA hO hlb hub hsm
    refine ⟨st2, dl, du, ?_, hmerged, by omega, hdl, hdu, d0, hdict, ?_, ?_⟩
    · unfold shimModel
      rw [hsm]
      exact hrun
    · intro k vu hpub hk
      exact copyAndPatch_lookup_upper O A d0 dl du k vu hpub hk
    · intro k vl hpub hu2 hl2
      exact copyAndPatch_lookup_lower O A d0 dl du k vl hpub hu2 hl2

def c5lsp : ModSpec :=
  ⟨[Stmt.assign "x" (PyVal.obj 0 none), Stmt.assign "y" (PyVal.obj 1 none),
    Stmt.imp "a" "selfref"]⟩

def c5usp : ModSpec := ⟨[Stmt.imp "o" "orig", Stmt.assign "x" (PyVal.obj 2 none)]⟩

def c5env : Env :=
  ⟨fun n => if n = "a" then some c5lsp else if n = "o" then some c5usp else none,
    fun _ => none⟩

def c5st0 : St := ⟨[], fun _ => none, fun _ => none⟩

theorem C5_selfmount_witness :
    ("o" : String) ≠ "a" ∧ c5env.spec "a" = some c5lsp ∧
    c5env.spec "o" = some c5usp ∧ c5st0.sysMods "o" = none ∧
    (∃ st2 dl du,
      shimModel c5env "a" "o" "o" c5st0 = .ok (c5st0.heap.length + 2, st2) ∧
      ((st2.getObj (c5st0.heap.length + 2)).bind (fun o => o.merged) =
        some ⟨c5st0.heap.length + 1, c5st0.heap.length, ("o", "a", "o")⟩) ∧
      c5st0.heap.length ≠ c5st0.heap.length + 2 ∧
      (st2.getObj c5st0.heap.length).map (fun o => o.dict) = some dl ∧
      (st2.getObj (c5st0.heap.length + 1)).map (fun o => o.dict) = some du ∧
      (∃ d0, (st2.getObj (c5st0.heap.length + 2)).map (fun o => o.dict) =
        some (copyAndPatch "o" "a" d0 dl du) ∧
        (∀ k vu, pyStartsWith k "__" = false → du k = some vu →
          copyAndPatch "o" "a" d0 dl du k = some (patchEntry "o" "a" vu)) ∧
        (∀ k vl, pyStartsWith k "__" = false → du k = none → dl k = some vl →
          copyAndPatch "o" "a" d0 dl du k = some (patchEntry "o" "a" vl)))) :=
  ⟨by decide, rfl, rfl, rfl,
    (C5_selfmount c5env ⟨"z", "z", "z"⟩ "c" c5st0 0 ⟨0, 0, ("", "", "")⟩ c5st0
        "a" "o" c5lsp c5usp).2 (by decide) rfl rfl
      (by
        intro s hs
        simp only [c5lsp, List.mem_cons, List.not_mem_nil, or_false] at hs
        rcases hs with rfl | rfl | rfl
        · trivial
        · trivial
        · rfl)
      (by
        intro s hs
        simp only [c5usp, List.mem_cons, List.not_mem_nil, or_false] at hs
        rcases hs with rfl | rfl
        · rfl
        · trivial)
      rfl⟩

end Modshim
